import Mathlib

/-!
Shallow embedding of the bird-finder backend (`src/bird_finder_backend.py`)
together with proofs about its behaviour.

Modelling conventions:
* SQL float columns and query floats are modelled as `Rat`; SQL integer
  columns as `Int`; text columns as `String`; `DateTime` values as an
  abstract `Int` timestamp (only ordering and equality of timestamps matter
  to the code under study).
* The SQLAlchemy tables become explicit lists of rows held in a `Store`
  record; a handler is a pure function from its parsed request data and the
  current store to a response value and the updated store.
* `datetime.utcnow()` is passed in as an explicit `now : Int` argument;
  `generate_password_hash` and `datetime.fromisoformat` are external
  library functions and are passed in as explicit function arguments.
* Auto-increment primary keys are modelled as `max existing id + 1`.
-/

namespace BirdFinder

/-! ### Python truthiness of optional request fields

`data.get(field)` returns `None` for an absent key; `if not data.get(field)`
treats `None`, the empty string and the integer `0` as missing. -/

def strTruthy : Option String → Bool
  | none => false
  | some s => s ≠ ""

def intTruthy : Option Int → Bool
  | none => false
  | some n => n ≠ 0

/-- Truthiness of an optional float (`if lat and lng:` in `get_lost_birds`):
`None` and `0.0` are falsy. -/
def ratTruthy : Option Rat → Bool
  | none => false
  | some q => q ≠ 0

/-! ### Data model: one record per SQLAlchemy model, one field per column -/

structure UserRow where
  id : Int
  email : String
  password_hash : String
  name : String
  phone : String
  created_at : Int
deriving DecidableEq

structure SpeciesRow where
  id : Int
  name_th : String
  name_en : String
  description : String
  characteristics : String
deriving DecidableEq

structure LostBirdRow where
  id : Int
  user_id : Int
  species_id : Option Int
  name : String
  description : String
  characteristics : String
  photos : String
  last_seen_location : String
  last_seen_lat : Option Rat
  last_seen_lng : Option Rat
  lost_date : Int
  contact_info : String
  reward_amount : Int
  status : String
  created_at : Int
  updated_at : Int
deriving DecidableEq

structure FoundBirdRow where
  id : Int
  user_id : Int
  species_id : Option Int
  description : String
  characteristics : String
  photos : String
  found_location : String
  found_lat : Option Rat
  found_lng : Option Rat
  found_date : Int
  contact_info : String
  status : String
  created_at : Int
deriving DecidableEq

structure SightingRow where
  id : Int
  lost_bird_id : Int
  user_id : Int
  location : String
  lat : Option Rat
  lng : Option Rat
  sighting_date : Int
  description : String
  photos : String
  confidence_level : Int
  verified : Bool
  created_at : Int
deriving DecidableEq

structure Store where
  users : List UserRow
  lostBirds : List LostBirdRow
  foundBirds : List FoundBirdRow
  sightings : List SightingRow
  species : List SpeciesRow
deriving DecidableEq

/-- Next auto-increment id for a list of existing ids. -/
def nextId (ids : List Int) : Int :=
  ids.foldr max 0 + 1

def nextUserId (st : Store) : Int := nextId (st.users.map (·.id))
def nextLostBirdId (st : Store) : Int := nextId (st.lostBirds.map (·.id))
def nextSightingId (st : Store) : Int := nextId (st.sightings.map (·.id))

/-! ### JSON values and the `json.dumps` / `json.loads` pair

The backend stores the `characteristics`, `photos` and `contact_info`
request fields as JSON text columns via `json.dumps` and re-reads them with
`json.loads`.  Both are modelled here concretely: `jsonDumps` reproduces
CPython's `json.dumps` output for the default options (`ensure_ascii=True`,
separators `", "` and `": "`, including `\uXXXX` escapes and UTF-16
surrogate pairs for astral characters), and `jsonLoads` is a recursive
descent parser for that format.  JSON numbers are modelled as integers
(the float grammar plays no role in any claim). -/

inductive Json where
  | null
  | bool (b : Bool)
  | num (n : Int)
  | str (s : String)
  | arr (elems : List Json)
  | obj (fields : List (String × Json))

def digitChar (n : Nat) : Char := Char.ofNat (48 + n)

def natDigitsFuel : Nat → Nat → List Char → List Char
  | 0, n, acc => digitChar n :: acc
  | fuel + 1, n, acc =>
    if n < 10 then digitChar n :: acc
    else natDigitsFuel fuel (n / 10) (digitChar (n % 10) :: acc)

/-- Decimal digits of a natural number, most significant first (`n` itself
is always enough fuel). -/
def natDigits (n : Nat) : List Char := natDigitsFuel n n []

/-- Python `repr` of an integer, as `json.dumps` prints it. -/
def intToChars (n : Int) : List Char :=
  if n < 0 then '-' :: natDigits n.natAbs else natDigits n.toNat

/-- Lowercase hex digit, as produced by CPython's `\uXXXX` escapes. -/
def hexDigitChar (n : Nat) : Char :=
  if n < 10 then Char.ofNat (48 + n) else Char.ofNat (87 + n)

def toHex4 (n : Nat) : List Char :=
  [hexDigitChar (n / 4096 % 16), hexDigitChar (n / 256 % 16),
   hexDigitChar (n / 16 % 16), hexDigitChar (n % 16)]

/-- The escape of one character in `json.dumps` with `ensure_ascii=True`:
short escapes for `"`, `\` and the usual control characters, `\uXXXX` for
other control and non-ASCII characters, with astral characters written as a
UTF-16 surrogate pair. -/
def escapeChar (c : Char) : List Char :=
  if c = '"' then ['\\', '"']
  else if c = '\\' then ['\\', '\\']
  else if c = '\x08' then ['\\', 'b']
  else if c = '\t' then ['\\', 't']
  else if c = '\n' then ['\\', 'n']
  else if c = '\x0c' then ['\\', 'f']
  else if c = '\r' then ['\\', 'r']
  else if c.toNat < 0x20 ∨ 0x7f ≤ c.toNat then
    if c.toNat < 0x10000 then '\\' :: 'u' :: toHex4 c.toNat
    else
      ('\\' :: 'u' :: toHex4 (0xd800 + (c.toNat - 0x10000) / 0x400)) ++
      ('\\' :: 'u' :: toHex4 (0xdc00 + (c.toNat - 0x10000) % 0x400))
  else [c]

def escapeList (l : List Char) : List Char := l.flatMap escapeChar

mutual

def dumpsVal : Json → List Char
  | .null => 'n' :: ['u', 'l', 'l']
  | .bool true => 't' :: ['r', 'u', 'e']
  | .bool false => 'f' :: ['a', 'l', 's', 'e']
  | .num n => intToChars n
  | .str s => '"' :: (escapeList s.toList ++ ['"'])
  | .arr [] => ['[', ']']
  | .arr (e :: es) => '[' :: (dumpsVal e ++ dumpsElems es ++ [']'])
  | .obj [] => ['\x7b', '\x7d']
  | .obj (f :: fs) => '\x7b' :: (dumpsField f ++ dumpsFields fs ++ ['\x7d'])

def dumpsElems : List Json → List Char
  | [] => []
  | e :: es => ',' :: ' ' :: (dumpsVal e ++ dumpsElems es)

def dumpsField : String × Json → List Char
  | (k, v) => '"' :: (escapeList k.toList ++ ('"' :: ':' :: ' ' :: dumpsVal v))

def dumpsFields : List (String × Json) → List Char
  | [] => []
  | f :: fs => ',' :: ' ' :: (dumpsField f ++ dumpsFields fs)

end

/-- `json.dumps` with its default options. -/
def jsonDumps (v : Json) : String := (dumpsVal v).asString

def isJsonWs (c : Char) : Bool := c = ' ' || c = '\t' || c = '\n' || c = '\r'

def skipWs (l : List Char) : List Char := l.dropWhile isJsonWs

def isDigitChar (c : Char) : Bool := 48 ≤ c.toNat && c.toNat ≤ 57

def digitVal (c : Char) : Nat := c.toNat - 48

def digitsVal (l : List Char) : Nat := l.foldl (fun a c => 10 * a + digitVal c) 0

def hexVal? (c : Char) : Option Nat :=
  if 48 ≤ c.toNat ∧ c.toNat ≤ 57 then some (c.toNat - 48)
  else if 97 ≤ c.toNat ∧ c.toNat ≤ 102 then some (c.toNat - 87)
  else if 65 ≤ c.toNat ∧ c.toNat ≤ 70 then some (c.toNat - 55)
  else none

/-- Parse an integer JSON number from the head of the input (the float
grammar is not modelled; see `Json`). -/
def parseNum : List Char → Option (Json × List Char)
  | [] => none
  | c :: l =>
    if c = '-' then
      if (l.takeWhile isDigitChar) = [] then none
      else some (Json.num (-(digitsVal (l.takeWhile isDigitChar) : Int)),
                 l.dropWhile isDigitChar)
    else
      if ((c :: l).takeWhile isDigitChar) = [] then none
      else some (Json.num (digitsVal ((c :: l).takeWhile isDigitChar)),
                 (c :: l).dropWhile isDigitChar)

/-- Decode one escape sequence, starting after the backslash: the decoded
character and the remaining input.  `\uXXXX` escapes are decoded, combining
UTF-16 surrogate pairs; a lone surrogate is rejected (CPython would build a
lone-surrogate `str`, which has no counterpart in a Unicode-scalar string
type). -/
def decodeEsc : List Char → Option (Char × List Char)
  | [] => none
  | e :: rest =>
    if e = '"' then some ('"', rest)
    else if e = '\\' then some ('\\', rest)
    else if e = '/' then some ('/', rest)
    else if e = 'b' then some ('\x08', rest)
    else if e = 'f' then some ('\x0c', rest)
    else if e = 'n' then some ('\n', rest)
    else if e = 'r' then some ('\r', rest)
    else if e = 't' then some ('\t', rest)
    else if e = 'u' then
      match rest with
      | a :: b :: c2 :: d :: rest3 =>
        (match hexVal? a, hexVal? b, hexVal? c2, hexVal? d with
         | some ha, some hb, some hc, some hd =>
           if 0xd800 ≤ 4096 * ha + 256 * hb + 16 * hc + hd ∧
               4096 * ha + 256 * hb + 16 * hc + hd ≤ 0xdbff then
             (match rest3 with
              | x1 :: x2 :: a2 :: b2 :: c3 :: d2 :: rest4 =>
                if x1 = '\\' ∧ x2 = 'u' then
                  (match hexVal? a2, hexVal? b2, hexVal? c3, hexVal? d2 with
                   | some ha2, some hb2, some hc2, some hd2 =>
                     if 0xdc00 ≤ 4096 * ha2 + 256 * hb2 + 16 * hc2 + hd2 ∧
                         4096 * ha2 + 256 * hb2 + 16 * hc2 + hd2 ≤ 0xdfff then
                       some (Char.ofNat (0x10000 +
                           0x400 * (4096 * ha + 256 * hb + 16 * hc + hd - 0xd800) +
                           (4096 * ha2 + 256 * hb2 + 16 * hc2 + hd2 - 0xdc00)),
                         rest4)
                     else none
                   | _, _, _, _ => none)
                else none
              | _ => none)
           else if 0xdc00 ≤ 4096 * ha + 256 * hb + 16 * hc + hd ∧
               4096 * ha + 256 * hb + 16 * hc + hd ≤ 0xdfff then none
           else some (Char.ofNat (4096 * ha + 256 * hb + 16 * hc + hd), rest3)
         | _, _, _, _ => none)
      | _ => none
    else none

/-- Parse the body of a JSON string (the input starts after the opening
quote), returning the decoded characters and the input after the closing
quote.  The fuel argument only bounds the number of decoded characters and
is always instantiated with the input length, which suffices since every
decoded character consumes at least one input character. -/
def parseStrBody : Nat → List Char → Option (List Char × List Char)
  | 0, _ => none
  | _ + 1, [] => none
  | fuel + 1, c :: rest =>
    if c = '"' then some ([], rest)
    else if c = '\\' then
      match decodeEsc rest with
      | some (ch, rest2) => (parseStrBody fuel rest2).map fun p => (ch :: p.1, p.2)
      | none => none
    else if c.toNat < 0x20 then none
    else (parseStrBody fuel rest).map fun p => (c :: p.1, p.2)

mutual

def parseVal : Nat → List Char → Option (Json × List Char)
  | 0, _ => none
  | fuel + 1, input =>
    match skipWs input with
    | [] => none
    | c :: rest =>
      if c = 'n' then
        match rest with
        | 'u' :: 'l' :: 'l' :: r => some (Json.null, r)
        | _ => none
      else if c = 't' then
        match rest with
        | 'r' :: 'u' :: 'e' :: r => some (Json.bool true, r)
        | _ => none
      else if c = 'f' then
        match rest with
        | 'a' :: 'l' :: 's' :: 'e' :: r => some (Json.bool false, r)
        | _ => none
      else if c = '"' then
        match parseStrBody rest.length rest with
        | some (s, r) => some (Json.str s.asString, r)
        | none => none
      else if c = '[' then
        match skipWs rest with
        | [] => none
        | c2 :: rest2 =>
          if c2 = ']' then some (Json.arr [], rest2)
          else
            match parseVal fuel (c2 :: rest2) with
            | some (v, r3) =>
              match parseElems fuel r3 with
              | some (vs, r4) => some (Json.arr (v :: vs), r4)
              | none => none
            | none => none
      else if c = '\x7b' then
        match skipWs rest with
        | [] => none
        | c2 :: rest2 =>
          if c2 = '\x7d' then some (Json.obj [], rest2)
          else
            match parseField fuel (c2 :: rest2) with
            | some (f, r3) =>
              match parseFields fuel r3 with
              | some (fs, r4) => some (Json.obj (f :: fs), r4)
              | none => none
            | none => none
      else if c = '-' ∨ isDigitChar c then parseNum (c :: rest)
      else none

def parseElems : Nat → List Char → Option (List Json × List Char)
  | 0, _ => none
  | fuel + 1, input =>
    match skipWs input with
    | [] => none
    | c :: rest =>
      if c = ']' then some ([], rest)
      else if c = ',' then
        match parseVal fuel rest with
        | some (v, r2) =>
          match parseElems fuel r2 with
          | some (vs, r3) => some (v :: vs, r3)
          | none => none
        | none => none
      else none

def parseField : Nat → List Char → Option ((String × Json) × List Char)
  | 0, _ => none
  | fuel + 1, input =>
    match skipWs input with
    | [] => none
    | c :: rest =>
      if c = '"' then
        match parseStrBody rest.length rest with
        | some (k, r2) =>
          (match skipWs r2 with
           | [] => none
           | c2 :: r3 =>
             if c2 = ':' then
               match parseVal fuel r3 with
               | some (v, r4) => some ((k.asString, v), r4)
               | none => none
             else none)
        | none => none
      else none

def parseFields : Nat → List Char → Option (List (String × Json) × List Char)
  | 0, _ => none
  | fuel + 1, input =>
    match skipWs input with
    | [] => none
    | c :: rest =>
      if c = '\x7d' then some ([], rest)
      else if c = ',' then
        match parseField fuel rest with
        | some (f, r2) =>
          match parseFields fuel r2 with
          | some (fs, r3) => some (f :: fs, r3)
          | none => none
        | none => none
      else none

end

/-- The head of `l`, if any, does not satisfy `p`; the side condition under
which a parser for a maximal run (digits) is not disturbed by what follows. -/
def headNot (p : Char → Bool) (l : List Char) : Prop :=
  ∀ c, l.head? = some c → p c = false

/-- `json.loads`: parse a JSON document and reject trailing garbage. -/
def jsonLoads (s : String) : Option Json :=
  match parseVal (s.toList.length + 1) s.toList with
  | some (v, rest) => if skipWs rest = [] then some v else none
  | none => none

/-! Fuel bounds: `nVal v` is enough fuel for `parseVal` to parse the
serialization of `v`, and similarly for the other parsers. -/

mutual

def nVal : Json → Nat
  | .null => 1
  | .bool _ => 1
  | .num _ => 1
  | .str _ => 1
  | .arr [] => 1
  | .arr (e :: es) => 1 + max (nVal e) (nElems es)
  | .obj [] => 1
  | .obj (f :: fs) => 1 + max (nField f) (nFields fs)

def nElems : List Json → Nat
  | [] => 1
  | e :: es => 1 + max (nVal e) (nElems es)

def nField : String × Json → Nat
  | (_, v) => 1 + nVal v

def nFields : List (String × Json) → Nat
  | [] => 1
  | f :: fs => 1 + max (nField f) (nFields fs)

end

/-- Python `json.loads(x) if x else default`, the idiom used when reading
the JSON text columns back (`bird.characteristics`, `bird.photos`, ...).
`none` models the `json.JSONDecodeError` that would escape to the handler's
catch-all `except` as a 500. -/
def loadsOr (text : String) (dflt : Json) : Option Json :=
  if text = "" then some dflt else jsonLoads text

/-! ### Date handling

`datetime.fromisoformat(data[...].replace('Z', '+00:00'))`.  The `replace`
is modelled exactly; `fromisoformat` itself is a standard-library function,
so every theorem below is parametric in the date parser
`parseDate : String → Option Int` (`none` models the `ValueError`).
`parseIsoDate` is a concrete instance used for concrete evaluations: it
accepts `YYYY-MM-DD`, optionally followed by `T` or a space and
`HH:MM[:SS]`, optionally followed by an offset `±HH:MM`; the integer it
returns encodes the parsed instant (its exact value is irrelevant to every
claim). -/

/-- Python `s.replace('Z', '+00:00')`: the needle is a single character, so
this replaces every occurrence of `Z`. -/
def replaceZChars : List Char → List Char
  | [] => []
  | c :: cs =>
    if c = 'Z' then '+' :: '0' :: '0' :: ':' :: '0' :: '0' :: replaceZChars cs
    else c :: replaceZChars cs

def pyReplaceZ (s : String) : String := (replaceZChars s.toList).asString

def char2Val? (a b : Char) : Option Nat :=
  if isDigitChar a && isDigitChar b then some (10 * digitVal a + digitVal b)
  else none

def parseIsoOffset : List Char → Option Int
  | [] => some 0
  | sign :: h1 :: h2 :: ':' :: m1 :: m2 :: [] =>
    if sign = '+' ∨ sign = '-' then
      match char2Val? h1 h2, char2Val? m1 m2 with
      | some hh, some mm =>
        if hh < 24 ∧ mm < 60 then
          some (if sign = '-' then -(((hh * 60 + mm : Nat) : Int))
                else ((hh * 60 + mm : Nat) : Int))
        else none
      | _, _ => none
    else none
  | _ => none

def parseIsoTime : List Char → Option Int
  | h1 :: h2 :: ':' :: m1 :: m2 :: rest =>
    (match char2Val? h1 h2, char2Val? m1 m2 with
     | some hh, some mm =>
       if hh < 24 ∧ mm < 60 then
         match rest with
         | ':' :: s1 :: s2 :: rest2 =>
           (match char2Val? s1 s2 with
            | some ss =>
              if ss < 60 then
                (parseIsoOffset rest2).map fun off =>
                  ((hh * 3600 + mm * 60 + ss : Nat) : Int) - off * 60
              else none
            | none => none)
         | rest2 =>
           (parseIsoOffset rest2).map fun off =>
             ((hh * 3600 + mm * 60 : Nat) : Int) - off * 60
       else none
     | _, _ => none)
  | _ => none

/-- Modelled from the stdlib: `datetime.fromisoformat` on the common subset
described above. -/
def parseIsoDate (s : String) : Option Int :=
  match s.toList with
  | y1 :: y2 :: y3 :: y4 :: '-' :: mo1 :: mo2 :: '-' :: d1 :: d2 :: rest =>
    (match char2Val? y1 y2, char2Val? y3 y4, char2Val? mo1 mo2, char2Val? d1 d2 with
     | some yh, some yl, some mo, some dd =>
       if 1 ≤ mo ∧ mo ≤ 12 ∧ 1 ≤ dd ∧ dd ≤ 31 then
         let dayVal : Int := (((yh * 100 + yl) * 12 + mo) * 31 + dd : Nat)
         match rest with
         | [] => some (dayVal * 86400)
         | sep :: rest2 =>
           if sep = 'T' ∨ sep = ' ' then
             (parseIsoTime rest2).map fun t => dayVal * 86400 + t
           else none
       else none
     | _, _, _, _ => none)
  | _ => none

/-! ### SQLite `LIKE`, as generated by SQLAlchemy's `Column.contains`

`LostBird.name.contains(search)` renders as `name LIKE '%' || search || '%'`
with no escaping, executed by SQLite whose default `LIKE` is
case-insensitive for ASCII letters, with `%` matching any sequence and `_`
matching any single character. -/

/-- ASCII-only lowercasing (SQLite's default `LIKE` folds only ASCII). -/
def lowerAscii (c : Char) : Char :=
  if 65 ≤ c.toNat ∧ c.toNat ≤ 90 then Char.ofNat (c.toNat + 32) else c

def likeMatch : List Char → List Char → Bool
  | [], [] => true
  | [], _ :: _ => false
  | c :: p, [] => if c = '%' then likeMatch p [] else false
  | c :: p, d :: t =>
    if c = '%' then likeMatch p (d :: t) || likeMatch (c :: p) t
    else if c = '_' then likeMatch p t
    else (lowerAscii c = lowerAscii d) && likeMatch p t
termination_by p t => (t.length, p.length)

/-- `column.contains(needle)`: SQLite `LIKE` against `'%' + needle + '%'`. -/
def likeContains (needle text : String) : Bool :=
  likeMatch ('%' :: (needle.toList ++ ['%'])) text.toList

/-- Helper for the spec-side substring notion: `s` is a prefix of `t`. -/
def isSubListAt : List Char → List Char → Bool
  | [], _ => true
  | _ :: _, [] => false
  | a :: s, b :: t => a = b && isSubListAt s t

/-- Helper for the spec-side substring notion: `s` occurs contiguously in `t`. -/
def containsSub (s : List Char) : List Char → Bool
  | [] => isSubListAt s []
  | c :: t2 => isSubListAt s (c :: t2) || containsSub s t2

/-- The spec's search notion, stated from its words: the needle occurs as a
case-insensitive (ASCII folding) contiguous substring of the text. -/
def insensSubstr (needle text : String) : Bool :=
  containsSub (needle.toList.map lowerAscii) (text.toList.map lowerAscii)

/-- A search string with no SQL `LIKE` wildcard in it. -/
def noWild (s : String) : Prop :=
  ∀ c ∈ s.toList, c ≠ '%' ∧ c ≠ '_'

instance (s : String) : Decidable (noWild s) :=
  inferInstanceAs (Decidable (∀ c ∈ s.toList, c ≠ '%' ∧ c ≠ '_'))

/-! ### Handlers -/

structure RegisterRequest where
  email : Option String
  password : Option String
  name : Option String
  phone : Option String

inductive RegisterResult where
  | error (status : Nat) (message : String)
  | created (userId : Int)
deriving DecidableEq

/-- `POST /api/register`.  `generate_password_hash` is passed in as `hash`. -/
def register (hash : String → String) (now : Int) (req : RegisterRequest)
    (st : Store) : RegisterResult × Store :=
  if strTruthy req.email = false then (.error 400 "email is required", st)
  else if strTruthy req.password = false then (.error 400 "password is required", st)
  else if strTruthy req.name = false then (.error 400 "name is required", st)
  else if (st.users.find? (fun u => u.email == req.email.getD "")).isSome then
    (.error 400 "Email already registered", st)
  else
    let uid := nextUserId st
    let user : UserRow :=
      { id := uid, email := req.email.getD "",
        password_hash := hash (req.password.getD ""),
        name := req.name.getD "", phone := req.phone.getD "",
        created_at := now }
    (.created uid, { st with users := st.users ++ [user] })

structure LostBirdRequest where
  user_id : Option Int
  species_id : Option Int
  name : Option String
  description : Option String
  characteristics : Option Json
  photos : Option Json
  last_seen_location : Option String
  last_seen_lat : Option Rat
  last_seen_lng : Option Rat
  lost_date : Option String
  contact_info : Option Json
  reward_amount : Option Int

inductive CreateResult where
  | error (status : Nat) (message : String)
  | created (id : Int)
deriving DecidableEq

/-- `POST /api/lost-birds`.  An unparseable `lost_date` raises `ValueError`
out of `datetime.fromisoformat`, which the handler's catch-all `except`
turns into a 500 response (the error-message text itself comes from the
exception and is not modelled beyond a fixed placeholder). -/
def create_lost_bird (parseDate : String → Option Int) (now : Int)
    (req : LostBirdRequest) (st : Store) : CreateResult × Store :=
  if intTruthy req.user_id = false then (.error 400 "user_id is required", st)
  else if strTruthy req.name = false then (.error 400 "name is required", st)
  else if strTruthy req.description = false then
    (.error 400 "description is required", st)
  else if strTruthy req.last_seen_location = false then
    (.error 400 "last_seen_location is required", st)
  else if strTruthy req.lost_date = false then
    (.error 400 "lost_date is required", st)
  else
    match parseDate (pyReplaceZ (req.lost_date.getD "")) with
    | none => (.error 500 "Invalid isoformat string", st)
    | some d =>
      let lbId := nextLostBirdId st
      let row : LostBirdRow :=
        { id := lbId, user_id := req.user_id.getD 0, species_id := req.species_id,
          name := req.name.getD "", description := req.description.getD "",
          characteristics := jsonDumps (req.characteristics.getD (Json.obj [])),
          photos := jsonDumps (req.photos.getD (Json.arr [])),
          last_seen_location := req.last_seen_location.getD "",
          last_seen_lat := req.last_seen_lat, last_seen_lng := req.last_seen_lng,
          lost_date := d,
          contact_info := jsonDumps (req.contact_info.getD (Json.obj [])),
          reward_amount := req.reward_amount.getD 0, status := "lost",
          created_at := now, updated_at := now }
      (.created lbId, { st with lostBirds := st.lostBirds ++ [row] })

structure SightingRequest where
  lost_bird_id : Option Int
  user_id : Option Int
  location : Option String
  lat : Option Rat
  lng : Option Rat
  sighting_date : Option String
  description : Option String
  photos : Option Json
  confidence_level : Option Int

/-- `POST /api/sightings`.  Note: the handler validates only field presence;
it performs no lookup of `lost_bird_id` against the `LostBird` table before
inserting, and the SQLite backend as configured does not enforce foreign
keys. -/
def create_sighting (parseDate : String → Option Int) (now : Int)
    (req : SightingRequest) (st : Store) : CreateResult × Store :=
  if intTruthy req.lost_bird_id = false then
    (.error 400 "lost_bird_id is required", st)
  else if intTruthy req.user_id = false then (.error 400 "user_id is required", st)
  else if strTruthy req.location = false then (.error 400 "location is required", st)
  else if strTruthy req.sighting_date = false then
    (.error 400 "sighting_date is required", st)
  else
    match parseDate (pyReplaceZ (req.sighting_date.getD "")) with
    | none => (.error 500 "Invalid isoformat string", st)
    | some d =>
      let sid := nextSightingId st
      let row : SightingRow :=
        { id := sid, lost_bird_id := req.lost_bird_id.getD 0,
          user_id := req.user_id.getD 0, location := req.location.getD "",
          lat := req.lat, lng := req.lng, sighting_date := d,
          description := req.description.getD "",
          photos := jsonDumps (req.photos.getD (Json.arr [])),
          confidence_level := req.confidence_level.getD 5,
          verified := false, created_at := now }
      (.created sid, { st with sightings := st.sightings ++ [row] })

/-! ### `GET /api/lost-birds`: filters, ordering, pagination -/

structure ListParams where
  page : Option Int
  per_page : Option Int
  status : Option String
  search : Option String
  lat : Option Rat
  lng : Option Rat
  radius : Option Rat

structure PaginationInfo where
  page : Int
  pages : Nat
  total : Nat
  has_next : Bool
  has_prev : Bool
deriving DecidableEq

def statusFilter (status : String) (b : LostBirdRow) : Bool := b.status == status

/-- The `search` filter: applied only for a present non-empty search string
(`if search:`), OR of the three `contains` conditions. -/
def searchFilter (search : Option String) (b : LostBirdRow) : Bool :=
  match search with
  | none => true
  | some s =>
    if s = "" then true
    else
      likeContains s b.name || likeContains s b.description ||
        likeContains s b.last_seen_location

/-- The bounding-box geo filter: applied only when both `lat` and `lng` are
present and non-zero (`if lat and lng:`); a row whose `last_seen_lat` or
`last_seen_lng` is NULL never satisfies SQL `BETWEEN`. -/
def geoFilter (lat lng : Option Rat) (radius : Rat) (b : LostBirdRow) : Bool :=
  if ratTruthy lat && ratTruthy lng then
    let la := lat.getD 0
    let ln := lng.getD 0
    let latRange := radius / 111
    let lngRange := radius / (111 * |la|)
    match b.last_seen_lat, b.last_seen_lng with
    | some bla, some bln =>
      decide (la - latRange ≤ bla) && decide (bla ≤ la + latRange) &&
        decide (ln - lngRange ≤ bln) && decide (bln ≤ ln + lngRange)
    | _, _ => false
  else true

/-- The filtered (unsorted, unpaginated) row set of `GET /api/lost-birds`,
with the three filters chained in source order and the source's defaults
(`status` "lost", `radius` 50). -/
def lostBirdsMatching (p : ListParams) (st : Store) : List LostBirdRow :=
  ((st.lostBirds.filter (statusFilter (p.status.getD "lost"))).filter
      (searchFilter p.search)).filter
    (geoFilter p.lat p.lng (p.radius.getD 50))

/-- `order_by(LostBird.created_at.desc())`. -/
def createdDesc (a b : LostBirdRow) : Prop := b.created_at ≤ a.created_at

instance : DecidableRel createdDesc := fun a b =>
  inferInstanceAs (Decidable (b.created_at ≤ a.created_at))

instance : IsTotal LostBirdRow createdDesc :=
  ⟨fun a b => le_total b.created_at a.created_at⟩

instance : IsTrans LostBirdRow createdDesc :=
  ⟨fun _ _ _ h1 h2 => le_trans h2 h1⟩

/-- `GET /api/lost-birds`: filter, sort descending by `created_at`, and
paginate via flask-sqlalchemy's `paginate(page=..., per_page=...,
error_out=False)`, which clamps `page < 1` to 1 and replaces `per_page < 1`
by the default 20, slices with `LIMIT per_page OFFSET (page-1)*per_page`,
and reports `total`, `pages = ceil(total/per_page)`, `has_next = page <
pages`, `has_prev = page > 1`.  The response echoes the raw requested page
number.  (The per-row JSON wire serialization adds no further selection
logic and is not modelled; the handler's output is the selected rows plus
the pagination record.) -/
def perPage (p : ListParams) : Nat :=
  if (p.per_page.getD 20) < 1 then 20 else (p.per_page.getD 20).toNat

def normPage (p : ListParams) : Int :=
  if (p.page.getD 1) < 1 then 1 else p.page.getD 1

def get_lost_birds (p : ListParams) (st : Store) :
    List LostBirdRow × PaginationInfo :=
  let per := perPage p
  let page := normPage p
  let sorted := List.insertionSort createdDesc (lostBirdsMatching p st)
  let total := sorted.length
  let pages := (total + per - 1) / per
  let items := (sorted.drop ((page.toNat - 1) * per)).take per
  (items,
   { page := p.page.getD 1, pages := pages, total := total,
     has_next := decide (page.toNat < pages), has_prev := decide (1 < page) })

/-! ### `GET /api/lost-birds/<id>` -/

structure OwnerDetail where
  id : Int
  name : String
  email : String
  phone : String

structure SpeciesDetail where
  id : Int
  name_th : String
  name_en : String
  description : String

structure SightingDetail where
  id : Int
  location : String
  lat : Option Rat
  lng : Option Rat
  sighting_date : Int
  description : String
  photos : Json
  confidence_level : Int
  verified : Bool
  reporter : String

structure LostBirdDetail where
  id : Int
  name : String
  description : String
  characteristics : Json
  photos : Json
  last_seen_location : String
  last_seen_lat : Option Rat
  last_seen_lng : Option Rat
  lost_date : Int
  contact_info : Json
  reward_amount : Int
  status : String
  created_at : Int
  owner : OwnerDetail
  species : Option SpeciesDetail
  sightings : List SightingDetail

/-- Serialization of one sighting inside the detail response; `none` models
the exceptions (missing reporter row, undecodable stored JSON) that the
handler's catch-all turns into a 500. -/
def serializeSighting (st : Store) (s : SightingRow) : Option SightingDetail :=
  match st.users.find? (fun u => u.id == s.user_id) with
  | none => none
  | some rep =>
    match loadsOr s.photos (Json.arr []) with
    | none => none
    | some ph =>
      some { id := s.id, location := s.location, lat := s.lat, lng := s.lng,
             sighting_date := s.sighting_date, description := s.description,
             photos := ph, confidence_level := s.confidence_level,
             verified := s.verified, reporter := rep.name }

/-- `GET /api/lost-birds/<id>`: `get_or_404`, then serialize the full
record with embedded owner, optional species, and the sighting list. -/
def get_lost_bird (birdId : Int) (st : Store) :
    Except (Nat × String) LostBirdDetail :=
  match st.lostBirds.find? (fun b => b.id == birdId) with
  | none => .error (404, "Not Found")
  | some bird =>
    match st.users.find? (fun u => u.id == bird.user_id) with
    | none => .error (500, "owner missing")
    | some owner =>
      match loadsOr bird.characteristics (Json.obj []),
          loadsOr bird.photos (Json.arr []),
          loadsOr bird.contact_info (Json.obj []) with
      | some ch, some ph, some ci =>
        match (st.sightings.filter (fun s => s.lost_bird_id == bird.id)).mapM
            (serializeSighting st) with
        | none => .error (500, "sighting serialization failed")
        | some sDetails =>
          .ok { id := bird.id, name := bird.name,
                description := bird.description, characteristics := ch,
                photos := ph, last_seen_location := bird.last_seen_location,
                last_seen_lat := bird.last_seen_lat,
                last_seen_lng := bird.last_seen_lng,
                lost_date := bird.lost_date, contact_info := ci,
                reward_amount := bird.reward_amount, status := bird.status,
                created_at := bird.created_at,
                owner := { id := owner.id, name := owner.name,
                           email := owner.email, phone := owner.phone },
                species := bird.species_id.bind fun sid =>
                  (st.species.find? (fun sp => sp.id == sid)).map fun sp =>
                    { id := sp.id, name_th := sp.name_th,
                      name_en := sp.name_en, description := sp.description },
                sightings := sDetails }
      | _, _, _ => .error (500, "stored JSON failed to parse")

/-! ### Upload handling -/

def ALLOWED_EXTENSIONS : List String := ["png", "jpg", "jpeg", "gif"]

def lowerStr (s : String) : String := (s.toList.map lowerAscii).asString

/-- Python `filename.rsplit('.', 1)[1]`: the part after the last dot. -/
def afterLastDot (l : List Char) : List Char :=
  (l.reverse.takeWhile (fun c => c ≠ '.')).reverse

def allowed_file (filename : String) : Bool :=
  filename.toList.contains '.' &&
    ALLOWED_EXTENSIONS.contains (lowerStr (afterLastDot filename.toList).asString)

def isPyWs (c : Char) : Bool :=
  c = ' ' || c = '\t' || c = '\n' || c = '\r' || c = '\x0b' || c = '\x0c'

/-- Python `str.split()` (split on whitespace runs, dropping empties). -/
def splitWsGo : List Char → List Char → List (List Char)
  | [], cur => if cur = [] then [] else [cur.reverse]
  | c :: cs, cur =>
    if isPyWs c then
      if cur = [] then splitWsGo cs [] else cur.reverse :: splitWsGo cs []
    else splitWsGo cs (c :: cur)

def joinUnderscore : List (List Char) → List Char
  | [] => []
  | [w] => w
  | w :: ws => w ++ '_' :: joinUnderscore ws

def isDotUnd (c : Char) : Bool := c = '.' || c = '_'

def stripDotUnd (l : List Char) : List Char :=
  ((l.dropWhile isDotUnd).reverse.dropWhile isDotUnd).reverse

def keepSecureChar (c : Char) : Bool :=
  (65 ≤ c.toNat && c.toNat ≤ 90) || (97 ≤ c.toNat && c.toNat ≤ 122) ||
    (48 ≤ c.toNat && c.toNat ≤ 57) || c = '_' || c = '.' || c = '-'

/-- werkzeug's `secure_filename`, modelled for ASCII input: non-ASCII
characters are dropped (the NFKD step only affects non-ASCII input), path
separators become spaces, whitespace runs are joined with `_`, characters
outside `A-Za-z0-9_.-` are removed, and leading/trailing `.` and `_` are
stripped (the Windows reserved-name special case is omitted). -/
def secure_filename (s : String) : String :=
  let ascii := s.toList.filter (fun c => c.toNat < 128)
  let seps := ascii.map (fun c => if c = '/' ∨ c = '\\' then ' ' else c)
  let joined := joinUnderscore (splitWsGo seps [])
  (stripDotUnd (joined.filter keepSecureChar)).asString

/-- `save_uploaded_file`: on an accepted file, store under
`uuid4() + '_' + secure_filename(original)`.  The freshly drawn UUID hex
string is passed in as `uuidHex`; the upload directory is modelled as the
list of stored filenames.  (`if file and allowed_file(...)`: a
`FileStorage` is truthy iff its filename is non-empty.) -/
def save_uploaded_file (uuidHex : String) (origName : String)
    (files : List String) : Option String × List String :=
  if origName ≠ "" && allowed_file origName then
    let unique := uuidHex ++ "_" ++ secure_filename origName
    (some unique, files ++ [unique])
  else (none, files)

inductive UploadResult where
  | error (status : Nat) (message : String)
  | ok (filename : String) (url : String)
deriving DecidableEq

/-- `POST /api/upload`.  `resize_image` rewrites the stored file's pixel
data in place and never changes its name; it is not modelled further. -/
def upload_file (uuidHex : String) (hasFilePart : Bool) (origName : String)
    (files : List String) : UploadResult × List String :=
  if hasFilePart = false then (.error 400 "No file provided", files)
  else if origName = "" then (.error 400 "No file selected", files)
  else
    match save_uploaded_file uuidHex origName files with
    | (some fn, files2) => (.ok fn ("/api/uploads/" ++ fn), files2)
    | (none, files2) => (.error 400 "Invalid file type", files2)

/-- The spec's acceptance condition, stated from its words: the filename's
final extension, compared case-insensitively, is png, jpg, jpeg or gif. -/
def finalExt? (filename : String) : Option String :=
  if filename.toList.contains '.' then
    some (afterLastDot filename.toList).asString
  else none

def specExtAccepted (filename : String) : Bool :=
  match finalExt? filename with
  | some e => ALLOWED_EXTENSIONS.contains (lowerStr e)
  | none => false

/-! ### `GET /api/stats` -/

structure StatsResult where
  total_lost : Nat
  total_found : Nat
  total_reunited : Nat
  total_sightings : Nat
  recent_lost : Nat
  recent_found : Nat
  success_rate : Rat
deriving DecidableEq

/-- Round half to even (Python's rounding mode) to an integer. -/
def roundHalfEven (q : Rat) : Int :=
  let f := ⌊q⌋
  let r := q - f
  if r < 1 / 2 then f
  else if 1 / 2 < r then f + 1
  else if f % 2 = 0 then f else f + 1

/-- Python `round(x, 2)` on the idealized rational reading of the float
arithmetic. -/
def pyRound2 (q : Rat) : Rat := (roundHalfEven (q * 100) : Rat) / 100

/-- `GET /api/stats`.  `recent_*` counts rows with
`created_at >= utcnow() - 30 days`; a day is 86400 seconds in the timestamp
encoding. -/
def get_statistics (now : Int) (st : Store) : StatsResult :=
  let total_lost := st.lostBirds.length
  let total_reunited :=
    (st.lostBirds.filter (fun b => b.status == "reunited")).length
  { total_lost := total_lost,
    total_found := st.foundBirds.length,
    total_reunited := total_reunited,
    total_sightings := st.sightings.length,
    recent_lost :=
      (st.lostBirds.filter (fun b => decide (now - 30 * 86400 ≤ b.created_at))).length,
    recent_found :=
      (st.foundBirds.filter (fun b => decide (now - 30 * 86400 ≤ b.created_at))).length,
    success_rate :=
      pyRound2 (((total_reunited : Rat) / ((max total_lost 1 : Nat) : Rat)) * 100) }

/-! ### Concrete fixtures used in closed evaluations -/

def stEmpty : Store :=
  { users := [], lostBirds := [], foundBirds := [], sightings := [], species := [] }

def stAnn : Store :=
  { users := [{ id := 1, email := "a@b.c", password_hash := "h", name := "Ann",
                phone := "", created_at := 0 }],
    lostBirds := [], foundBirds := [], sightings := [], species := [] }

def reqKiwiBadDate : LostBirdRequest :=
  { user_id := some 1, species_id := none, name := some "Kiwi",
    description := some "green parrot", characteristics := none, photos := none,
    last_seen_location := some "park", last_seen_lat := none,
    last_seen_lng := none, lost_date := some "01/05/2023", contact_info := none,
    reward_amount := none }

def birdX : LostBirdRow :=
  { id := 1, user_id := 1, species_id := none, name := "x", description := "y",
    characteristics := "{}", photos := "[]", last_seen_location := "z",
    last_seen_lat := none, last_seen_lng := none, lost_date := 0,
    contact_info := "{}", reward_amount := 0, status := "lost",
    created_at := 5, updated_at := 5 }

def stX : Store :=
  { users := [], lostBirds := [birdX], foundBirds := [], sightings := [],
    species := [] }

def pUnderscore : ListParams :=
  { page := none, per_page := none, status := none, search := some "_",
    lat := none, lng := none, radius := none }

def birdSky : LostBirdRow :=
  { id := 1, user_id := 1, species_id := none, name := "Sky",
    description := "blue", characteristics := "{}", photos := "[]",
    last_seen_location := "pier", last_seen_lat := none,
    last_seen_lng := none, lost_date := 0, contact_info := "{}",
    reward_amount := 0, status := "lost", created_at := 5, updated_at := 5 }

def stSky : Store :=
  { users := [], lostBirds := [birdSky], foundBirds := [], sightings := [],
    species := [] }

def pKY : ListParams :=
  { page := none, per_page := none, status := none, search := some "KY",
    lat := none, lng := none, radius := none }

def reqSightingDangling : SightingRequest :=
  { lost_bird_id := some 1, user_id := some 1, location := some "Lumpini Park",
    lat := none, lng := none, sighting_date := some "2023-05-01T10:00:00Z",
    description := none, photos := none, confidence_level := none }

def jsonCharacteristics : Json :=
  Json.obj [("size", Json.str "medium"), ("color", Json.str "เขียว")]

def jsonPhotos : Json := Json.arr [Json.str "a.png", Json.str "b.png"]

def jsonContact : Json := Json.obj [("phone", Json.str "081-234-5678")]

def reqKiwiGood : LostBirdRequest :=
  { user_id := some 1, species_id := none, name := some "Kiwi",
    description := some "green parrot",
    characteristics := some jsonCharacteristics, photos := some jsonPhotos,
    last_seen_location := some "Bangkok", last_seen_lat := none,
    last_seen_lng := none, lost_date := some "2023-05-01T10:00:00Z",
    contact_info := some jsonContact, reward_amount := some 100 }

/-! ## Theorems -/

theorem le_foldr_max (x : Int) (ids : List Int) (hx : x ∈ ids) :
    x ≤ ids.foldr max 0 := by
  induction ids with
  | nil => cases hx
  | cons a l ih =>
    rcases List.mem_cons.mp hx with h | h
    · subst h; exact le_max_left _ _
    · exact le_trans (ih h) (le_max_right _ _)

theorem lt_nextId (x : Int) (ids : List Int) (hx : x ∈ ids) : x < nextId ids :=
  lt_of_le_of_lt (le_foldr_max x ids hx) (by simp [nextId])

/-! ### C10: statistics -/

/-- C10: `get_statistics` returns `success_rate = round(total_reunited /
max(total_lost, 1) * 100, 2)`, where `total_reunited` counts the lost-bird
rows with status "reunited" and `total_lost` counts all lost-bird rows;
with zero lost-bird rows the result is 0 (never a division error, division
being guarded by `max(..., 1)`). -/
theorem stats_success_rate (now : Int) (st : Store) :
    (get_statistics now st).success_rate =
      pyRound2 ((((st.lostBirds.filter (fun b => b.status == "reunited")).length : Rat) /
          ((max st.lostBirds.length 1 : Nat) : Rat)) * 100) ∧
    (st.lostBirds = [] → (get_statistics now st).success_rate = 0) := by
  refine ⟨rfl, fun h => ?_⟩
  simp [get_statistics, h, pyRound2, roundHalfEven]

/-- Witness for `stats_success_rate`: at the empty store the success rate
evaluates to 0. -/
theorem stats_success_rate_witness :
    (get_statistics 0
        { users := [], lostBirds := [], foundBirds := [], sightings := [],
          species := [] }).success_rate = 0 :=
  (stats_success_rate 0 _).2 rfl

/-! ### C4: the geo filter is skipped when lat or lng is 0 or absent -/

/-- C4: whenever the query's `lat` or `lng` is absent or equal to 0, the
listing is identical to the same query with no coordinates at all (the
`if lat and lng:` guard skips the whole geo block, so the division
`radius / (111 * abs(lat))` is never evaluated with `lat == 0`). -/
theorem geo_filter_requires_nonzero (p : ListParams) (st : Store)
    (h : p.lat = none ∨ p.lat = some 0 ∨ p.lng = none ∨ p.lng = some 0) :
    get_lost_birds p st = get_lost_birds { p with lat := none, lng := none } st := by
  have hg : geoFilter p.lat p.lng (p.radius.getD 50) =
      geoFilter (none : Option Rat) (none : Option Rat) (p.radius.getD 50) := by
    funext b
    rcases h with h | h | h | h <;> simp [geoFilter, h, ratTruthy]
  have hm : lostBirdsMatching p st =
      lostBirdsMatching { p with lat := none, lng := none } st := by
    simp only [lostBirdsMatching, hg]
  simp only [get_lost_birds, hm]
  rfl

/-- Witness for `geo_filter_requires_nonzero` at `lat = 0`. -/
theorem geo_filter_requires_nonzero_witness :
    get_lost_birds
        { page := some 1, per_page := some 5, status := none, search := none,
          lat := some 0, lng := some 7, radius := some 2 }
        { users := [], lostBirds := [], foundBirds := [], sightings := [],
          species := [] } =
      get_lost_birds
        { page := some 1, per_page := some 5, status := none, search := none,
          lat := none, lng := none, radius := some 2 }
        { users := [], lostBirds := [], foundBirds := [], sightings := [],
          species := [] } :=
  geo_filter_requires_nonzero _ _ (Or.inr (Or.inl rfl))

/-! ### C9: upload extension check -/

theorem allowed_file_eq_spec (filename : String) :
    allowed_file filename = specExtAccepted filename := by
  unfold allowed_file specExtAccepted finalExt?
  by_cases h : '.' ∈ filename.data <;> simp [h]

/-- C9: an upload whose filename's final extension is not png/jpg/jpeg/gif
(case-insensitively) is rejected with a 400 validation error and nothing is
stored; an accepted upload is stored under the freshly drawn unique id,
an underscore, and the sanitized original filename. -/
theorem upload_extension_check (uuidHex filename : String) (files : List String)
    (hne : filename ≠ "") :
    (specExtAccepted filename = false →
      upload_file uuidHex true filename files =
        (.error 400 "Invalid file type", files)) ∧
    (specExtAccepted filename = true →
      upload_file uuidHex true filename files =
        (.ok (uuidHex ++ "_" ++ secure_filename filename)
           ("/api/uploads/" ++ (uuidHex ++ "_" ++ secure_filename filename)),
         files ++ [uuidHex ++ "_" ++ secure_filename filename])) := by
  constructor <;> intro hext <;>
    simp [upload_file, save_uploaded_file, hne, allowed_file_eq_spec, hext]

/-- Witness for `upload_extension_check`: `virus.exe` is rejected with no
write, `photo.png` is stored as `u2_photo.png`. -/
theorem upload_extension_check_witness :
    (("virus.exe" : String) ≠ "" ∧
      upload_file "u1" true "virus.exe" [] =
        (.error 400 "Invalid file type", [])) ∧
    (("photo.png" : String) ≠ "" ∧
      upload_file "u2" true "photo.png" [] =
        (.ok ("u2" ++ "_" ++ secure_filename "photo.png")
           ("/api/uploads/" ++ ("u2" ++ "_" ++ secure_filename "photo.png")),
         [] ++ ["u2" ++ "_" ++ secure_filename "photo.png"])) :=
  ⟨⟨by decide,
    (upload_extension_check "u1" "virus.exe" [] (by decide)).1 (by decide)⟩,
   ⟨by decide,
    (upload_extension_check "u2" "photo.png" [] (by decide)).2 (by decide)⟩⟩

/-! ### C7: duplicate email registration -/

/-- C7 counterexample: with the email already registered but an empty
password, the failure is the missing-field error, not the duplicate-email
conflict — the required-field loop runs before the duplicate check, so the
claim "fails with the duplicate-email conflict regardless of the other
field values" is false as stated. -/
theorem register_conflict_counterexample :
    (register id 0
        { email := some "a@b.c", password := some "", name := some "Bob",
          phone := none } stAnn).1 = RegisterResult.error 400 "password is required" ∧
    (register id 0
        { email := some "a@b.c", password := some "", name := some "Bob",
          phone := none } stAnn).1 ≠
      RegisterResult.error 400 "Email already registered" := by
  constructor <;> decide

/-- C7 (amended): registering with an already-registered email always fails
with an HTTP 400 error and leaves the store (in particular the existing
user's row) unchanged; when the other required fields are non-empty the
error is the duplicate-email conflict. -/
theorem register_duplicate_email (hash : String → String) (now : Int)
    (req : RegisterRequest) (st : Store)
    (hdup : (st.users.find? (fun u => u.email == req.email.getD "")).isSome = true) :
    (∃ msg, (register hash now req st).1 = RegisterResult.error 400 msg) ∧
    (register hash now req st).2 = st ∧
    (strTruthy req.email = true → strTruthy req.password = true →
      strTruthy req.name = true →
      (register hash now req st).1 =
        RegisterResult.error 400 "Email already registered") := by
  unfold register
  by_cases he : strTruthy req.email <;> by_cases hp : strTruthy req.password <;>
    by_cases hn : strTruthy req.name <;>
    simp [he, hp, hn, hdup]

/-- Witness for `register_duplicate_email` at a concrete duplicate email. -/
theorem register_duplicate_email_witness :
    ((stAnn.users.find? (fun u =>
        u.email == (some "a@b.c" : Option String).getD "")).isSome = true) ∧
    ((∃ msg, (register id 0
        { email := some "a@b.c", password := some "pw", name := some "Bob",
          phone := none } stAnn).1 = RegisterResult.error 400 msg) ∧
      (register id 0
        { email := some "a@b.c", password := some "pw", name := some "Bob",
          phone := none } stAnn).2 = stAnn ∧
      (strTruthy (some "a@b.c") = true → strTruthy (some "pw") = true →
        strTruthy (some "Bob") = true →
        (register id 0
          { email := some "a@b.c", password := some "pw", name := some "Bob",
            phone := none } stAnn).1 =
          RegisterResult.error 400 "Email already registered")) :=
  ⟨by decide, register_duplicate_email id 0 _ stAnn (by decide)⟩

/-! ### C6: lost_date parsing -/

/-- Supporting fact for the Z-designator normalization: on a string whose
only `Z` is the trailing designator, Python's `replace('Z', '+00:00')`
rewrites exactly that designator to an explicit UTC offset. -/
theorem replaceZChars_trailing (l : List Char) (h : 'Z' ∉ l) :
    replaceZChars (l ++ ['Z']) =
      l ++ ('+' :: '0' :: '0' :: ':' :: '0' :: '0' :: []) := by
  induction l with
  | nil => simp [replaceZChars]
  | cons c cs ih =>
    have hc : c ≠ 'Z' := fun hc => h (hc ▸ List.mem_cons_self c cs)
    have hcs : 'Z' ∉ cs := fun hm => h (List.mem_cons_of_mem c hm)
    simp [replaceZChars, hc, ih hcs]

/-- C6 counterexample: an unparseable `lost_date` makes `create_lost_bird`
fail with the catch-all 500 response (the `ValueError` from
`datetime.fromisoformat` is caught by `except Exception`), not with an
HTTP 400 validation error as claimed; no row is written. -/
theorem lost_date_unparseable_counterexample :
    create_lost_bird parseIsoDate 0 reqKiwiBadDate stEmpty =
      (CreateResult.error 500 "Invalid isoformat string", stEmpty) ∧
    ∀ msg, (create_lost_bird parseIsoDate 0 reqKiwiBadDate stEmpty).1 ≠
      CreateResult.error 400 msg := by
  have h : create_lost_bird parseIsoDate 0 reqKiwiBadDate stEmpty =
      (CreateResult.error 500 "Invalid isoformat string", stEmpty) := by decide
  refine ⟨h, fun msg hc => ?_⟩
  rw [h] at hc
  simp at hc

/-- C6 (amended): the `lost_date` string has every `Z` replaced by
`+00:00` (for a well-formed ISO string, only the trailing designator)
before being handed to the ISO-8601 parser; whatever parser is plugged in,
a `lost_date` it cannot parse makes the request fail — with the generic
500 error, the `ValueError` reaching the handler's catch-all — and no row
is written. -/
theorem lost_date_parse_failure (parseDate : String → Option Int) (now : Int)
    (req : LostBirdRequest) (st : Store)
    (h1 : intTruthy req.user_id = true) (h2 : strTruthy req.name = true)
    (h3 : strTruthy req.description = true)
    (h4 : strTruthy req.last_seen_location = true)
    (h5 : strTruthy req.lost_date = true)
    (hparse : parseDate (pyReplaceZ (req.lost_date.getD "")) = none) :
    create_lost_bird parseDate now req st =
      (CreateResult.error 500 "Invalid isoformat string", st) := by
  unfold create_lost_bird
  simp [h1, h2, h3, h4, h5, hparse]

/-- Witness for `lost_date_parse_failure` at a concrete unparseable date. -/
theorem lost_date_parse_failure_witness :
    (intTruthy reqKiwiBadDate.user_id = true ∧
      strTruthy reqKiwiBadDate.name = true ∧
      strTruthy reqKiwiBadDate.description = true ∧
      strTruthy reqKiwiBadDate.last_seen_location = true ∧
      strTruthy reqKiwiBadDate.lost_date = true ∧
      parseIsoDate (pyReplaceZ (reqKiwiBadDate.lost_date.getD "")) = none) ∧
    create_lost_bird parseIsoDate 3 reqKiwiBadDate stAnn =
      (CreateResult.error 500 "Invalid isoformat string", stAnn) :=
  ⟨by decide,
   lost_date_parse_failure parseIsoDate 3 reqKiwiBadDate stAnn (by decide)
     (by decide) (by decide) (by decide) (by decide) (by decide)⟩

/-! ### C1: sighting creation does not check the lost-bird id -/

/-- C1 (code-bug evidence): on an empty store — so `lost_bird_id = 1`
references no `LostBird` row — `create_sighting` succeeds with a 201 and
inserts a `SightingReport` row carrying the dangling reference; the handler
performs no existence check at all, while the spec requires a 404
NotFoundError and no write. -/
theorem sighting_dangling_reference_inserted :
    (stEmpty.lostBirds.find? (fun b => b.id == 1)).isNone = true ∧
    (create_sighting parseIsoDate 7 reqSightingDangling stEmpty).1 =
      CreateResult.created 1 ∧
    ((create_sighting parseIsoDate 7 reqSightingDangling stEmpty).2.sightings.map
        (fun s => s.lost_bird_id)) = [1] := by
  refine ⟨by decide, by decide, by decide⟩

/-! ### C2: pagination -/

theorem flatten_chunks (l : List α) (n : Nat) (k : Nat) :
    ((List.range k).map (fun i => (l.drop (i * n)).take n)).flatten =
      l.take (k * n) := by
  induction k with
  | zero => simp
  | succ k ih =>
    rw [List.range_succ, List.map_append, List.flatten_append]
    simp only [List.map_cons, List.map_nil, List.flatten_cons, List.flatten_nil,
      List.append_nil, ih]
    rw [show (k + 1) * n = k * n + n by ring, List.take_add]

theorem le_ceil_mul (t n : Nat) (hn : 0 < n) : t ≤ ((t + n - 1) / n) * n := by
  have h1 := Nat.div_add_mod (t + n - 1) n
  have h2 := Nat.mod_lt (t + n - 1) hn
  have h3 : ((t + n - 1) / n) * n = n * ((t + n - 1) / n) := by ring
  omega

theorem lt_ceil_iff (a t n : Nat) (hn : 0 < n) :
    a < (t + n - 1) / n ↔ a * n < t := by
  rw [Nat.lt_iff_add_one_le, Nat.le_div_iff_mul_le hn]
  have hx : (a + 1) * n = a * n + n := by ring
  omega

theorem perPage_pos (p : ListParams) : 0 < perPage p := by
  unfold perPage
  split <;> omega

theorem lostBirdsMatching_page (p : ListParams) (st : Store) (q : Option Int) :
    lostBirdsMatching { p with page := q } st = lostBirdsMatching p st := rfl

/-- One page of the listing, explicitly: rows `(page-1)*per` to
`page*per` (exclusive) of the sorted filtered list. -/
theorem get_lost_birds_page_items (p : ListParams) (st : Store) (i : Nat) :
    (get_lost_birds { p with page := some ((i : Int) + 1) } st).1 =
      ((List.insertionSort createdDesc (lostBirdsMatching p st)).drop
          (i * perPage p)).take (perPage p) := by
  have hnorm : normPage { p with page := some ((i : Int) + 1) } = (i : Int) + 1 := by
    unfold normPage
    simp
  have hper : perPage { p with page := some ((i : Int) + 1) } = perPage p := rfl
  have hsub : (((i : Int) + 1)).toNat - 1 = i := by omega
  simp only [get_lost_birds, hnorm, hper, lostBirdsMatching_page, hsub]

/-- C2: concatenating the 1-indexed pages `1..pages` of `GET /lost-birds`
(the page size defaulting to 20) reproduces, with no duplicates and no
omissions, exactly the matching rows sorted descending by `created_at`;
and the pagination record carries the total row count, the total page
count `ceil(total/per_page)`, and has-next/has-previous booleans
consistent with those counts. -/
theorem lost_birds_pagination (p : ListParams) (st : Store) :
    (((List.range (get_lost_birds p st).2.pages).map
        (fun (i : Nat) => (get_lost_birds { p with page := some ((i : Int) + 1) } st).1)).flatten).Perm
        (lostBirdsMatching p st) ∧
    List.Sorted createdDesc
      (((List.range (get_lost_birds p st).2.pages).map
        (fun (i : Nat) => (get_lost_birds { p with page := some ((i : Int) + 1) } st).1)).flatten) ∧
    (get_lost_birds p st).2.total = (lostBirdsMatching p st).length ∧
    (get_lost_birds p st).2.pages =
      ((lostBirdsMatching p st).length + perPage p - 1) / perPage p ∧
    ((get_lost_birds p st).2.has_next = true ↔
      (normPage p).toNat * perPage p < (lostBirdsMatching p st).length) ∧
    ((get_lost_birds p st).2.has_prev = true ↔ 1 < p.page.getD 1) := by
  have hper := perPage_pos p
  have hlen : (List.insertionSort createdDesc (lostBirdsMatching p st)).length =
      (lostBirdsMatching p st).length :=
    (List.perm_insertionSort createdDesc (lostBirdsMatching p st)).length_eq
  have hpages : (get_lost_birds p st).2.pages =
      ((lostBirdsMatching p st).length + perPage p - 1) / perPage p := by
    simp only [get_lost_birds, hlen]
  have hflat :
      ((List.range (get_lost_birds p st).2.pages).map
        (fun (i : Nat) => (get_lost_birds { p with page := some ((i : Int) + 1) } st).1)).flatten =
        List.insertionSort createdDesc (lostBirdsMatching p st) := by
    have heq : (List.range (get_lost_birds p st).2.pages).map
        (fun (i : Nat) => (get_lost_birds { p with page := some ((i : Int) + 1) } st).1) =
        (List.range (get_lost_birds p st).2.pages).map
          (fun i => ((List.insertionSort createdDesc (lostBirdsMatching p st)).drop
              (i * perPage p)).take (perPage p)) :=
      List.map_congr_left fun i _ => get_lost_birds_page_items p st i
    rw [heq, flatten_chunks, List.take_of_length_le]
    rw [hlen, hpages]
    exact le_ceil_mul _ _ hper
  refine ⟨?_, ?_, ?_, hpages, ?_, ?_⟩
  · rw [hflat]
    exact List.perm_insertionSort createdDesc (lostBirdsMatching p st)
  · rw [hflat]
    exact List.sorted_insertionSort createdDesc (lostBirdsMatching p st)
  · simp only [get_lost_birds, hlen]
  · simp only [get_lost_birds, hlen, decide_eq_true_eq]
    exact lt_ceil_iff _ _ _ hper
  · simp only [get_lost_birds, decide_eq_true_eq, normPage]
    split <;> omega

/-- Witness for `lost_birds_pagination` (it quantifies only over the
parameters and the store, but is stated here at a concrete query for a
concrete two-row store, page size 1). -/
theorem lost_birds_pagination_witness :
    let b1 : LostBirdRow :=
      { id := 1, user_id := 1, species_id := none, name := "Kiwi",
        description := "green", characteristics := "{}", photos := "[]",
        last_seen_location := "park", last_seen_lat := none,
        last_seen_lng := none, lost_date := 0, contact_info := "{}",
        reward_amount := 0, status := "lost", created_at := 5, updated_at := 5 }
    let b2 : LostBirdRow :=
      { id := 2, user_id := 1, species_id := none, name := "Mango",
        description := "yellow", characteristics := "{}", photos := "[]",
        last_seen_location := "soi 7", last_seen_lat := none,
        last_seen_lng := none, lost_date := 0, contact_info := "{}",
        reward_amount := 0, status := "lost", created_at := 9, updated_at := 9 }
    let st : Store :=
      { users := [], lostBirds := [b1, b2], foundBirds := [], sightings := [],
        species := [] }
    let p : ListParams :=
      { page := some 1, per_page := some 1, status := none, search := none,
        lat := none, lng := none, radius := none }
    (((List.range (get_lost_birds p st).2.pages).map
        (fun (i : Nat) => (get_lost_birds { p with page := some ((i : Int) + 1) } st).1)).flatten).Perm
        (lostBirdsMatching p st) ∧
    (get_lost_birds p st).2.total = (lostBirdsMatching p st).length :=
  ⟨(lost_birds_pagination _ _).1, (lost_birds_pagination _ _).2.2.1⟩

/-! ### C3: the bounding-box geo filter -/

/-- C3: with non-zero `lat` and `lng` supplied (the only case in which the
geo block runs, cf. C4) and an explicit `radiusKm`, a row is in the
filtered set iff it passes the status and search filters and its
coordinates are present and lie within
`[lat - r/111, lat + r/111] × [lng - r/(111*|lat|), lng + r/(111*|lat|)]`;
in particular, a passing row located exactly at the query point is
included for any radius > 0. -/
theorem geo_filter_box (p : ListParams) (st : Store) (b : LostBirdRow)
    (la ln rad : Rat) (hla : p.lat = some la) (hln : p.lng = some ln)
    (hla0 : la ≠ 0) (hln0 : ln ≠ 0) (hrad : p.radius = some rad) :
    (b ∈ lostBirdsMatching p st ↔
      (b ∈ (st.lostBirds.filter (statusFilter (p.status.getD "lost"))).filter
          (searchFilter p.search) ∧
        ∃ bla bln, b.last_seen_lat = some bla ∧ b.last_seen_lng = some bln ∧
          la - rad / 111 ≤ bla ∧ bla ≤ la + rad / 111 ∧
          ln - rad / (111 * |la|) ≤ bln ∧ bln ≤ ln + rad / (111 * |la|))) ∧
    (0 < rad →
      b ∈ (st.lostBirds.filter (statusFilter (p.status.getD "lost"))).filter
          (searchFilter p.search) →
      b.last_seen_lat = some la → b.last_seen_lng = some ln →
      b ∈ lostBirdsMatching p st) := by
  have hgeo : ∀ r : LostBirdRow,
      geoFilter p.lat p.lng (p.radius.getD 50) r = true ↔
      ∃ bla bln, r.last_seen_lat = some bla ∧ r.last_seen_lng = some bln ∧
        la - rad / 111 ≤ bla ∧ bla ≤ la + rad / 111 ∧
        ln - rad / (111 * |la|) ≤ bln ∧ bln ≤ ln + rad / (111 * |la|) := by
    intro r
    rw [hla, hln, hrad]
    unfold geoFilter
    have h1 : ratTruthy (some la) = true := by simp [ratTruthy, hla0]
    have h2 : ratTruthy (some ln) = true := by simp [ratTruthy, hln0]
    rw [h1, h2]
    cases hra : r.last_seen_lat with
    | none => simp [hra]
    | some bla =>
      cases hrn : r.last_seen_lng with
      | none => simp [hra, hrn]
      | some bln =>
        simp only [hra, hrn, Bool.and_eq_true, decide_eq_true_eq,
          Bool.true_and, if_true, Option.getD_some]
        constructor
        · rintro ⟨⟨⟨hA, hB⟩, hC⟩, hD⟩
          exact ⟨bla, bln, rfl, rfl, hA, hB, hC, hD⟩
        · rintro ⟨bla2, bln2, hb1, hb2, hA, hB, hC, hD⟩
          cases hb1
          cases hb2
          exact ⟨⟨⟨hA, hB⟩, hC⟩, hD⟩
  constructor
  · unfold lostBirdsMatching
    rw [List.mem_filter]
    exact ⟨fun ⟨hmem, hgf⟩ => ⟨hmem, (hgeo b).mp hgf⟩,
           fun ⟨hmem, hex⟩ => ⟨hmem, (hgeo b).mpr hex⟩⟩
  · intro hr hmem hbla hbln
    unfold lostBirdsMatching
    rw [List.mem_filter]
    have hlat : (0 : Rat) ≤ rad / 111 :=
      div_nonneg (le_of_lt hr) (by norm_num)
    have habs : (0 : Rat) < |la| := abs_pos.mpr hla0
    have hlng : (0 : Rat) ≤ rad / (111 * |la|) :=
      div_nonneg (le_of_lt hr) (by positivity)
    refine ⟨hmem, (hgeo b).mpr ⟨la, ln, hbla, hbln, by linarith, by linarith,
      by linarith, by linarith⟩⟩

/-- Witness for `geo_filter_box`: a lost bird at exactly (13, 100) with a
50 km radius query centred there. -/
theorem geo_filter_box_witness :
    let b : LostBirdRow :=
      { id := 1, user_id := 1, species_id := none, name := "Kiwi",
        description := "green", characteristics := "{}", photos := "[]",
        last_seen_location := "park", last_seen_lat := some 13,
        last_seen_lng := some 100, lost_date := 0, contact_info := "{}",
        reward_amount := 0, status := "lost", created_at := 5, updated_at := 5 }
    let st : Store :=
      { users := [], lostBirds := [b], foundBirds := [], sightings := [],
        species := [] }
    let p : ListParams :=
      { page := none, per_page := none, status := none, search := none,
        lat := some 13, lng := some 100, radius := some 50 }
    (p.lat = some 13 ∧ p.lng = some 100 ∧ ((13 : Rat) ≠ 0) ∧
      ((100 : Rat) ≠ 0) ∧ p.radius = some 50) ∧
    ((b ∈ lostBirdsMatching p st ↔
      (b ∈ (st.lostBirds.filter (statusFilter (p.status.getD "lost"))).filter
          (searchFilter p.search) ∧
        ∃ bla bln, b.last_seen_lat = some bla ∧ b.last_seen_lng = some bln ∧
          13 - 50 / 111 ≤ bla ∧ bla ≤ 13 + 50 / 111 ∧
          100 - 50 / (111 * |(13 : Rat)|) ≤ bln ∧
          bln ≤ 100 + 50 / (111 * |(13 : Rat)|))) ∧
      (0 < (50 : Rat) →
        b ∈ (st.lostBirds.filter (statusFilter (p.status.getD "lost"))).filter
            (searchFilter p.search) →
        b.last_seen_lat = some 13 → b.last_seen_lng = some 100 →
        b ∈ lostBirdsMatching p st)) :=
  ⟨⟨rfl, rfl, by norm_num, by norm_num, rfl⟩,
   geo_filter_box _ _ _ 13 100 50 rfl rfl (by norm_num) (by norm_num) rfl⟩

/-! ### C8: the search filter

`LIKE '%s%'` for a wildcard-free `s` is exactly ASCII-case-insensitive
substring matching; the lemmas below establish this correspondence. -/

theorem like_pct_nil (t : List Char) : likeMatch ['%'] t = true := by
  induction t with
  | nil => simp [likeMatch]
  | cons d t ih => simp [likeMatch, ih]

theorem like_pct_iff (p : List Char) (t : List Char) :
    likeMatch ('%' :: p) t = true ↔
      ∃ t1 t2, t = t1 ++ t2 ∧ likeMatch p t2 = true := by
  induction t with
  | nil =>
    simp only [likeMatch, reduceIte]
    constructor
    · intro h
      exact ⟨[], [], rfl, h⟩
    · rintro ⟨t1, t2, heq, h⟩
      rcases List.append_eq_nil.mp heq.symm with ⟨rfl, rfl⟩
      exact h
  | cons d t ih =>
    simp only [likeMatch, reduceIte, Bool.or_eq_true]
    constructor
    · rintro (h | h)
      · exact ⟨[], d :: t, rfl, h⟩
      · obtain ⟨t1, t2, heq, h2⟩ := ih.mp h
        exact ⟨d :: t1, t2, by rw [heq, List.cons_append], h2⟩
    · rintro ⟨t1, t2, heq, h2⟩
      cases t1 with
      | nil =>
        simp only [List.nil_append] at heq
        exact Or.inl (heq ▸ h2)
      | cons c t1 =>
        simp only [List.cons_append, List.cons.injEq] at heq
        exact Or.inr (ih.mpr ⟨t1, t2, heq.2, h2⟩)

theorem like_lit_iff (s : List Char) (hw : ∀ c ∈ s, c ≠ '%' ∧ c ≠ '_')
    (p : List Char) : ∀ t : List Char,
    likeMatch (s ++ p) t = true ↔
      ∃ t1 t2, t = t1 ++ t2 ∧ t1.map lowerAscii = s.map lowerAscii ∧
        likeMatch p t2 = true := by
  induction s with
  | nil =>
    intro t
    constructor
    · intro h
      exact ⟨[], t, rfl, rfl, h⟩
    · rintro ⟨t1, t2, heq, hmap, h⟩
      rcases List.map_eq_nil_iff.mp hmap with rfl
      simpa using heq ▸ h
  | cons c s ih =>
    intro t
    have hc := hw c (List.mem_cons_self c s)
    have hws : ∀ c2 ∈ s, c2 ≠ '%' ∧ c2 ≠ '_' :=
      fun c2 hm => hw c2 (List.mem_cons_of_mem c hm)
    cases t with
    | nil =>
      simp only [List.cons_append, likeMatch, if_neg hc.1]
      constructor
      · intro h
        cases h
      · rintro ⟨t1, t2, heq, hmap, h⟩
        rcases List.append_eq_nil.mp heq.symm with ⟨rfl, rfl⟩
        simp at hmap
    | cons d t =>
      simp only [List.cons_append, likeMatch, if_neg hc.1, if_neg hc.2,
        Bool.and_eq_true, decide_eq_true_eq]
      constructor
      · rintro ⟨hlow, h⟩
        obtain ⟨t1, t2, heq, hmap, h2⟩ := (ih hws t).mp h
        exact ⟨d :: t1, t2, by rw [heq, List.cons_append],
          by simp [hmap, hlow], h2⟩
      · rintro ⟨t1, t2, heq, hmap, h2⟩
        cases t1 with
        | nil => simp at hmap
        | cons d2 t1 =>
          simp only [List.cons_append, List.cons.injEq] at heq
          simp only [List.map_cons, List.cons.injEq] at hmap
          cases heq.1
          exact ⟨hmap.1.symm, (ih hws t).mpr ⟨t1, t2, heq.2, hmap.2, h2⟩⟩

theorem like_contains_iff (s t : List Char) (hw : ∀ c ∈ s, c ≠ '%' ∧ c ≠ '_') :
    likeMatch ('%' :: (s ++ ['%'])) t = true ↔
      ∃ pre mid post, t = pre ++ mid ++ post ∧
        mid.map lowerAscii = s.map lowerAscii := by
  rw [like_pct_iff]
  constructor
  · rintro ⟨t1, t2, heq, h⟩
    obtain ⟨mid, post, heq2, hmap, _⟩ := (like_lit_iff s hw ['%'] t2).mp h
    exact ⟨t1, mid, post, by rw [heq, heq2, List.append_assoc], hmap⟩
  · rintro ⟨pre, mid, post, heq, hmap⟩
    refine ⟨pre, mid ++ post, by rw [heq, List.append_assoc], ?_⟩
    exact (like_lit_iff s hw ['%'] (mid ++ post)).mpr
      ⟨mid, post, rfl, hmap, like_pct_nil post⟩

theorem isSubListAt_iff (s : List Char) : ∀ t : List Char,
    isSubListAt s t = true ↔ ∃ post, t = s ++ post := by
  induction s with
  | nil =>
    intro t
    simp [isSubListAt]
  | cons a s ih =>
    intro t
    cases t with
    | nil =>
      simp [isSubListAt]
    | cons b t =>
      simp only [isSubListAt, Bool.and_eq_true, decide_eq_true_eq, ih t,
        List.cons_append, List.cons.injEq]
      constructor
      · rintro ⟨rfl, post, rfl⟩
        exact ⟨post, rfl, rfl⟩
      · rintro ⟨post, rfl, rfl⟩
        exact ⟨rfl, post, rfl⟩

theorem containsSub_iff (s : List Char) : ∀ t : List Char,
    containsSub s t = true ↔ ∃ pre post, t = pre ++ s ++ post := by
  intro t
  induction t with
  | nil =>
    simp only [containsSub, isSubListAt_iff]
    constructor
    · rintro ⟨post, h⟩
      exact ⟨[], post, by simpa using h⟩
    · rintro ⟨pre, post, h⟩
      exact ⟨post, by
        rcases List.append_eq_nil.mp h.symm with ⟨h2, rfl⟩
        rcases List.append_eq_nil.mp h2 with ⟨rfl, rfl⟩
        rfl⟩
  | cons c t ih =>
    simp only [containsSub, Bool.or_eq_true, isSubListAt_iff, ih]
    constructor
    · rintro (⟨post, h⟩ | ⟨pre, post, h⟩)
      · exact ⟨[], post, by simpa using h⟩
      · exact ⟨c :: pre, post, by simp [h]⟩
    · rintro ⟨pre, post, h⟩
      cases pre with
      | nil =>
        exact Or.inl ⟨post, by simpa using h⟩
      | cons c2 pre =>
        simp only [List.cons_append, List.append_assoc, List.cons.injEq] at h
        exact Or.inr ⟨pre, post, by simp [h.2]⟩

/-- On wildcard-free needles, the SQL `LIKE '%needle%'` test used by the
handler coincides with ASCII-case-insensitive substring matching. -/
theorem likeContains_eq_insens (s text : String) (hw : noWild s) :
    likeContains s text = insensSubstr s text := by
  have hbool : ∀ a b : Bool, (a = true ↔ b = true) → a = b := by decide
  apply hbool
  unfold likeContains insensSubstr
  rw [like_contains_iff s.toList text.toList hw, containsSub_iff]
  constructor
  · rintro ⟨pre, mid, post, heq, hmap⟩
    exact ⟨pre.map lowerAscii, post.map lowerAscii, by
      rw [heq]
      simp [hmap]⟩
  · rintro ⟨A, C, h⟩
    rw [List.append_assoc] at h
    obtain ⟨pre, rest, heq, hpre, hrest⟩ := List.map_eq_append_iff.mp h
    obtain ⟨mid, post, heq2, hmid, hpost⟩ := List.map_eq_append_iff.mp hrest
    exact ⟨pre, mid, post, by rw [heq, heq2, List.append_assoc], hmid⟩

/-- C8 counterexample: the search string `_` (a `LIKE` single-character
wildcard, passed through unescaped by `Column.contains`) matches the row
named "x" even though `_` is not a substring of any of the three fields,
so "included iff the search string is a case-insensitive substring" is
false as stated. -/
theorem search_wildcard_counterexample :
    birdX ∈ lostBirdsMatching pUnderscore stX ∧
    insensSubstr "_" birdX.name = false ∧
    insensSubstr "_" birdX.description = false ∧
    insensSubstr "_" birdX.last_seen_location = false := by
  refine ⟨?_, by decide, by decide, by decide⟩
  unfold lostBirdsMatching
  refine List.mem_filter.mpr ⟨List.mem_filter.mpr ⟨List.mem_filter.mpr
    ⟨?_, ?_⟩, ?_⟩, ?_⟩
  · show birdX ∈ [birdX]
    exact List.mem_singleton.mpr rfl
  · decide
  · show searchFilter pUnderscore.search birdX = true
    have ht : ("_" : String).data = ['_'] := rfl
    simp [searchFilter, likeContains, pUnderscore, ht, likeMatch, birdX]
  · decide

/-- C8 (amended): a row is included iff, besides the status and geo
filters, the SQLite `LIKE '%' || search || '%'` test (ASCII-case-
insensitive, with `%`/`_` in the search string acting as wildcards)
matches its name OR description OR last_seen_location; for a search string
containing no wildcard, this is exactly: the search string is a
case-insensitive substring of the name OR the description OR the
last_seen_location (OR semantics, not AND). -/
theorem search_filter_substring (p : ListParams) (st : Store)
    (b : LostBirdRow) (s : String) (hs : p.search = some s) (hne : s ≠ "")
    (hw : noWild s) :
    b ∈ lostBirdsMatching p st ↔
      (b ∈ st.lostBirds ∧ statusFilter (p.status.getD "lost") b = true ∧
        geoFilter p.lat p.lng (p.radius.getD 50) b = true ∧
        (insensSubstr s b.name = true ∨ insensSubstr s b.description = true ∨
          insensSubstr s b.last_seen_location = true)) := by
  unfold lostBirdsMatching
  simp only [List.mem_filter, hs]
  unfold searchFilter
  simp only [if_neg hne, likeContains_eq_insens _ _ hw, Bool.or_eq_true]
  tauto

/-- Witness for `search_filter_substring`: searching "KY" against the bird
named "Sky" (a case-insensitive substring of the name alone). -/
theorem search_filter_substring_witness :
    (pKY.search = some "KY" ∧ ("KY" : String) ≠ "" ∧ noWild "KY") ∧
    (birdSky ∈ lostBirdsMatching pKY stSky ↔
      (birdSky ∈ stSky.lostBirds ∧
        statusFilter (pKY.status.getD "lost") birdSky = true ∧
        geoFilter pKY.lat pKY.lng (pKY.radius.getD 50) birdSky = true ∧
        (insensSubstr "KY" birdSky.name = true ∨
          insensSubstr "KY" birdSky.description = true ∨
          insensSubstr "KY" birdSky.last_seen_location = true))) :=
  ⟨⟨rfl, by decide, by decide⟩,
   search_filter_substring pKY stSky birdSky "KY" rfl (by decide) (by decide)⟩

/-! ### C5: the JSON dumps/loads round trip

The development below proves `jsonLoads (jsonDumps v) = some v` for every
`Json` value `v`, and then the create/get round trip of the three JSON
text columns. -/

theorem char_ne_of_toNat {c d : Char} (h : c.toNat ≠ d.toNat) : c ≠ d :=
  fun he => h (congrArg Char.toNat he)

theorem char_valid_toNat (c : Char) :
    c.toNat < 55296 ∨ (57343 < c.toNat ∧ c.toNat < 1114112) := c.valid

theorem toNat_ofNat_valid (n : Nat) (h : n.isValidChar) :
    (Char.ofNat n).toNat = n := by
  rw [Char.ofNat, dif_pos h]
  rfl

/-- Facts about a decimal-digit character needed to drive the parser's
dispatch. -/
theorem digit_facts (c0 : Char) (h48 : 48 ≤ c0.toNat) (h57 : c0.toNat ≤ 57) :
    isJsonWs c0 = false ∧ c0 ≠ 'n' ∧ c0 ≠ 't' ∧ c0 ≠ 'f' ∧ c0 ≠ '"' ∧
      c0 ≠ '[' ∧ c0 ≠ '\x7b' ∧ c0 ≠ ']' ∧ c0 ≠ '\x7d' ∧ c0 ≠ ',' ∧
      c0 ≠ '-' ∧ isDigitChar c0 = true := by
  have hne : ∀ d : Char, c0.toNat ≠ d.toNat → c0 ≠ d :=
    fun d h he => h (congrArg Char.toNat he)
  have esp : (' ' : Char).toNat = 32 := rfl
  have eht : ('\t' : Char).toNat = 9 := rfl
  have ehn : ('\n' : Char).toNat = 10 := rfl
  have ehr : ('\r' : Char).toNat = 13 := rfl
  refine ⟨?_, hne 'n' (by rw [show ('n' : Char).toNat = 110 from rfl]; omega),
    hne 't' (by rw [show ('t' : Char).toNat = 116 from rfl]; omega),
    hne 'f' (by rw [show ('f' : Char).toNat = 102 from rfl]; omega),
    hne '"' (by rw [show ('"' : Char).toNat = 34 from rfl]; omega),
    hne '[' (by rw [show ('[' : Char).toNat = 91 from rfl]; omega),
    hne '\x7b' (by rw [show ('\x7b' : Char).toNat = 123 from rfl]; omega),
    hne ']' (by rw [show (']' : Char).toNat = 93 from rfl]; omega),
    hne '\x7d' (by rw [show ('\x7d' : Char).toNat = 125 from rfl]; omega),
    hne ',' (by rw [show (',' : Char).toNat = 44 from rfl]; omega),
    hne '-' (by rw [show ('-' : Char).toNat = 45 from rfl]; omega), ?_⟩
  · have h1 : c0 ≠ ' ' := hne ' ' (by rw [esp]; omega)
    have h2 : c0 ≠ '\t' := hne '\t' (by rw [eht]; omega)
    have h3 : c0 ≠ '\n' := hne '\n' (by rw [ehn]; omega)
    have h4 : c0 ≠ '\r' := hne '\r' (by rw [ehr]; omega)
    simp [isJsonWs, h1, h2, h3, h4]
  · simp only [isDigitChar, Bool.and_eq_true, decide_eq_true_eq]
    exact ⟨h48, h57⟩

/-- The digits produced by `natDigitsFuel` (with enough fuel): they extend
the accumulator, are non-empty, are decimal digits, and read back to `n`. -/
theorem natDigitsFuel_spec :
    ∀ fuel n acc, n ≤ fuel →
      ∃ ds, natDigitsFuel fuel n acc = ds ++ acc ∧ ds ≠ [] ∧
        (∀ c ∈ ds, 48 ≤ c.toNat ∧ c.toNat ≤ 57) ∧ digitsVal ds = n := by
  intro fuel
  induction fuel with
  | zero =>
    intro n acc hn
    have hn0 : n = 0 := by omega
    subst hn0
    refine ⟨[digitChar 0], rfl, by simp, ?_, rfl⟩
    intro c hc
    rcases List.mem_singleton.mp hc with rfl
    rw [digitChar, toNat_ofNat_valid 48 (by left; omega)]
    omega
  | succ fuel ih =>
    intro n acc hn
    by_cases h10 : n < 10
    · refine ⟨[digitChar n], by simp [natDigitsFuel, h10], by simp, ?_, ?_⟩
      · intro c hc
        rcases List.mem_singleton.mp hc with rfl
        rw [digitChar, toNat_ofNat_valid (48 + n) (by left; omega)]
        omega
      · simp [digitsVal, digitVal, digitChar,
          toNat_ofNat_valid (48 + n) (by left; omega)]
    · have hdiv : n / 10 ≤ fuel := by
        have := Nat.div_lt_self (show 0 < n by omega) (show 1 < 10 by omega)
        omega
      obtain ⟨ds, heq, hne, hdig, hval⟩ :=
        ih (n / 10) (digitChar (n % 10) :: acc) hdiv
      refine ⟨ds ++ [digitChar (n % 10)], ?_, by simp, ?_, ?_⟩
      · rw [natDigitsFuel, if_neg h10, heq, List.append_assoc]
        rfl
      · intro c hc
        rcases List.mem_append.mp hc with h | h
        · exact hdig c h
        · rcases List.mem_singleton.mp h with rfl
          rw [digitChar, toNat_ofNat_valid (48 + n % 10) (by left; omega)]
          omega
      · rw [digitsVal, List.foldl_append]
        have : digitVal (digitChar (n % 10)) = n % 10 := by
          rw [digitVal, digitChar, toNat_ofNat_valid (48 + n % 10) (by left; omega)]
          omega
        simp only [List.foldl_cons, List.foldl_nil]
        rw [show List.foldl (fun a c => 10 * a + digitVal c) 0 ds = digitsVal ds
            from rfl, hval, this]
        omega

theorem natDigits_spec (n : Nat) :
    ∃ ds, natDigits n = ds ∧ ds ≠ [] ∧
      (∀ c ∈ ds, 48 ≤ c.toNat ∧ c.toNat ≤ 57) ∧ digitsVal ds = n := by
  obtain ⟨ds, heq, hne, hdig, hval⟩ := natDigitsFuel_spec n n [] (le_refl n)
  exact ⟨ds, by rw [natDigits, heq, List.append_nil], hne, hdig, hval⟩

theorem takeWhile_digits (ds rest : List Char)
    (hds : ∀ c ∈ ds, isDigitChar c = true) (hrest : headNot isDigitChar rest) :
    (ds ++ rest).takeWhile isDigitChar = ds ∧
      (ds ++ rest).dropWhile isDigitChar = rest := by
  induction ds with
  | nil =>
    cases rest with
    | nil => simp
    | cons r rest =>
      have := hrest r rfl
      simp [List.takeWhile_cons, List.dropWhile_cons, this]
  | cons c ds ih =>
    have hc := hds c (List.mem_cons_self c ds)
    have hds2 : ∀ c2 ∈ ds, isDigitChar c2 = true :=
      fun c2 h => hds c2 (List.mem_cons_of_mem c h)
    obtain ⟨h1, h2⟩ := ih hds2
    simp [List.takeWhile_cons, List.dropWhile_cons, hc, h1, h2]

theorem parseNum_intToChars (n : Int) (rest : List Char)
    (hrest : headNot isDigitChar rest) :
    parseNum (intToChars n ++ rest) = some (Json.num n, rest) := by
  by_cases hneg : n < 0
  · obtain ⟨ds, heq, hne, hdig, hval⟩ := natDigits_spec n.natAbs
    have hdigB : ∀ c ∈ ds, isDigitChar c = true := by
      intro c hc
      obtain ⟨h1, h2⟩ := hdig c hc
      simp only [isDigitChar, Bool.and_eq_true, decide_eq_true_eq]
      exact ⟨h1, h2⟩
    obtain ⟨htake, hdrop⟩ := takeWhile_digits ds rest hdigB hrest
    rw [intToChars, if_pos hneg, heq]
    simp only [List.cons_append, parseNum, reduceIte, htake, hdrop, if_neg hne]
    have : -(digitsVal ds : Int) = n := by rw [hval]; omega
    rw [this]
  · obtain ⟨ds, heq, hne, hdig, hval⟩ := natDigits_spec n.toNat
    obtain ⟨c0, ds', rfl⟩ := List.exists_cons_of_ne_nil hne
    have hdigB : ∀ c ∈ c0 :: ds', isDigitChar c = true := by
      intro c hc
      obtain ⟨h1, h2⟩ := hdig c hc
      simp only [isDigitChar, Bool.and_eq_true, decide_eq_true_eq]
      exact ⟨h1, h2⟩
    obtain ⟨h48, h57⟩ := hdig c0 (List.mem_cons_self c0 ds')
    obtain ⟨htake, hdrop⟩ := takeWhile_digits (c0 :: ds') rest hdigB hrest
    obtain ⟨_, _, _, _, _, _, _, _, _, _, hdash, _⟩ := digit_facts c0 h48 h57
    rw [intToChars, if_neg hneg, heq]
    simp only [List.cons_append, parseNum, if_neg hdash] at htake hdrop ⊢
    rw [htake, hdrop, if_neg hne]
    have : (digitsVal (c0 :: ds') : Int) = n := by rw [hval]; omega
    rw [this]

theorem hexVal?_hexDigitChar : ∀ d : Nat, d < 16 →
    hexVal? (hexDigitChar d) = some d := by decide

theorem hex4_digits_sum (h : Nat) (hlt : h < 65536) :
    4096 * (h / 4096 % 16) + 256 * (h / 256 % 16) + 16 * (h / 16 % 16) +
      h % 16 = h := by
  have hq1 : h / 256 / 16 = h / 4096 := by
    rw [Nat.div_div_eq_div_mul]
  have hq2 : h / 16 / 16 = h / 256 := by
    rw [Nat.div_div_eq_div_mul]
  omega

theorem escapeChar_ne_nil (c : Char) : escapeChar c ≠ [] := by
  unfold escapeChar
  split_ifs <;> simp

theorem escapeList_length (s : List Char) : s.length ≤ (escapeList s).length := by
  induction s with
  | nil => simp [escapeList]
  | cons c s ih =>
    have h1 : escapeList (c :: s) = escapeChar c ++ escapeList s := by
      simp [escapeList]
    have h2 : 0 < (escapeChar c).length :=
      List.length_pos.mpr (escapeChar_ne_nil c)
    rw [h1, List.length_append, List.length_cons]
    omega

theorem toHex4_cons (h : Nat) (rest : List Char) :
    toHex4 h ++ rest =
      hexDigitChar (h / 4096 % 16) :: hexDigitChar (h / 256 % 16) ::
        hexDigitChar (h / 16 % 16) :: hexDigitChar (h % 16) :: rest := by
  simp [toHex4]

theorem decodeEsc_u_single (h : Nat) (hlt : h < 0x10000)
    (hnos : h < 0xd800 ∨ 0xdfff < h) (rest : List Char) :
    decodeEsc ('u' :: (toHex4 h ++ rest)) = some (Char.ofNat h, rest) := by
  rw [toHex4_cons]
  conv_lhs => rw [decodeEsc]
  rw [if_neg (show ('u' : Char) ≠ '"' from by decide),
    if_neg (show ('u' : Char) ≠ '\\' from by decide),
    if_neg (show ('u' : Char) ≠ '/' from by decide),
    if_neg (show ('u' : Char) ≠ 'b' from by decide),
    if_neg (show ('u' : Char) ≠ 'f' from by decide),
    if_neg (show ('u' : Char) ≠ 'n' from by decide),
    if_neg (show ('u' : Char) ≠ 'r' from by decide),
    if_neg (show ('u' : Char) ≠ 't' from by decide),
    if_pos (show ('u' : Char) = 'u' from rfl)]
  rw [hexVal?_hexDigitChar (h / 4096 % 16) (by omega),
    hexVal?_hexDigitChar (h / 256 % 16) (by omega),
    hexVal?_hexDigitChar (h / 16 % 16) (by omega),
    hexVal?_hexDigitChar (h % 16) (by omega)]
  have hrec := hex4_digits_sum h (by omega)
  dsimp only
  rw [hrec, if_neg (by omega), if_neg (by omega)]

theorem decodeEsc_u_pair (hi lo : Nat) (hhi : 0xd800 ≤ hi ∧ hi ≤ 0xdbff)
    (hlo : 0xdc00 ≤ lo ∧ lo ≤ 0xdfff) (rest : List Char) :
    decodeEsc ('u' :: (toHex4 hi ++ ('\\' :: 'u' :: (toHex4 lo ++ rest)))) =
      some (Char.ofNat (0x10000 + 0x400 * (hi - 0xd800) + (lo - 0xdc00)),
        rest) := by
  rw [toHex4_cons hi, toHex4_cons lo]
  conv_lhs => rw [decodeEsc]
  rw [if_neg (show ('u' : Char) ≠ '"' from by decide),
    if_neg (show ('u' : Char) ≠ '\\' from by decide),
    if_neg (show ('u' : Char) ≠ '/' from by decide),
    if_neg (show ('u' : Char) ≠ 'b' from by decide),
    if_neg (show ('u' : Char) ≠ 'f' from by decide),
    if_neg (show ('u' : Char) ≠ 'n' from by decide),
    if_neg (show ('u' : Char) ≠ 'r' from by decide),
    if_neg (show ('u' : Char) ≠ 't' from by decide),
    if_pos (show ('u' : Char) = 'u' from rfl)]
  rw [hexVal?_hexDigitChar (hi / 4096 % 16) (by omega),
    hexVal?_hexDigitChar (hi / 256 % 16) (by omega),
    hexVal?_hexDigitChar (hi / 16 % 16) (by omega),
    hexVal?_hexDigitChar (hi % 16) (by omega)]
  have hrec := hex4_digits_sum hi (by omega)
  dsimp only
  rw [hrec, if_pos hhi]
  rw [if_pos (⟨rfl, rfl⟩ : ('\\' : Char) = '\\' ∧ ('u' : Char) = 'u')]
  rw [hexVal?_hexDigitChar (lo / 4096 % 16) (by omega),
    hexVal?_hexDigitChar (lo / 256 % 16) (by omega),
    hexVal?_hexDigitChar (lo / 16 % 16) (by omega),
    hexVal?_hexDigitChar (lo % 16) (by omega)]
  have hrec2 := hex4_digits_sum lo (by omega)
  dsimp only
  rw [hrec2, if_pos hlo]

theorem parseStrBody_quote (fuel : Nat) (rest : List Char) :
    parseStrBody (fuel + 1) ('"' :: rest) = some ([], rest) := rfl

theorem parseStrBody_backslash (fuel : Nat) (rest : List Char) :
    parseStrBody (fuel + 1) ('\\' :: rest) =
      (match decodeEsc rest with
       | some (ch, rest2) =>
         (parseStrBody fuel rest2).map fun p => (ch :: p.1, p.2)
       | none => none) := rfl

theorem parseStrBody_plain (fuel : Nat) (c : Char) (rest : List Char)
    (h1 : c ≠ '"') (h2 : c ≠ '\\') :
    parseStrBody (fuel + 1) (c :: rest) =
      (if c.toNat < 0x20 then none
       else (parseStrBody fuel rest).map fun p => (c :: p.1, p.2)) := by
  conv_lhs => rw [parseStrBody]
  rw [if_neg h1, if_neg h2]

/-- Parsing the serialized body of a JSON string (with enough fuel)
recovers exactly the original characters. -/
theorem parseStrBody_escape (s : List Char) : ∀ fuel rest, s.length < fuel →
    parseStrBody fuel (escapeList s ++ ('"' :: rest)) = some (s, rest) := by
  induction s with
  | nil =>
    intro fuel rest hf
    cases fuel with
    | zero => omega
    | succ f =>
      show parseStrBody (f + 1) ([] ++ ('"' :: rest)) = some ([], rest)
      rw [List.nil_append, parseStrBody_quote]
  | cons c s ih =>
    intro fuel rest hf
    cases fuel with
    | zero => omega
    | succ f =>
      have hfs : s.length < f := by
        simp only [List.length_cons] at hf
        omega
      have hesc : escapeList (c :: s) = escapeChar c ++ escapeList s := by
        simp [escapeList]
      rw [hesc, List.append_assoc]
      by_cases h1 : c = '"'
      · subst h1
        rw [show escapeChar '"' = ['\\', '"'] from by simp [escapeChar],
          show (['\\', '"'] : List Char) ++ (escapeList s ++ '"' :: rest) =
            '\\' :: '"' :: (escapeList s ++ '"' :: rest) from rfl,
          parseStrBody_backslash]
        rw [show decodeEsc ('"' :: (escapeList s ++ '"' :: rest)) =
          some ('"', escapeList s ++ '"' :: rest) from rfl]
        dsimp only
        rw [ih f rest hfs]
        dsimp only [Option.map_some']
      · by_cases h2 : c = '\\'
        · subst h2
          rw [show escapeChar '\\' = ['\\', '\\'] from by simp [escapeChar, h1],
            show (['\\', '\\'] : List Char) ++ (escapeList s ++ '"' :: rest) =
              '\\' :: '\\' :: (escapeList s ++ '"' :: rest) from rfl,
            parseStrBody_backslash]
          rw [show decodeEsc ('\\' :: (escapeList s ++ '"' :: rest)) =
            some ('\\', escapeList s ++ '"' :: rest) from rfl]
          dsimp only
          rw [ih f rest hfs]
          dsimp only [Option.map_some']
        · by_cases h3 : c = '\x08'
          · subst h3
            rw [show escapeChar '\x08' = ['\\', 'b'] from by simp [escapeChar],
              show (['\\', 'b'] : List Char) ++ (escapeList s ++ '"' :: rest) =
                '\\' :: 'b' :: (escapeList s ++ '"' :: rest) from rfl,
              parseStrBody_backslash]
            rw [show decodeEsc ('b' :: (escapeList s ++ '"' :: rest)) =
              some ('\x08', escapeList s ++ '"' :: rest) from rfl]
            dsimp only
            rw [ih f rest hfs]
            dsimp only [Option.map_some']
          · by_cases h4 : c = '\t'
            · subst h4
              rw [show escapeChar '\t' = ['\\', 't'] from by simp [escapeChar],
                show (['\\', 't'] : List Char) ++ (escapeList s ++ '"' :: rest) =
                  '\\' :: 't' :: (escapeList s ++ '"' :: rest) from rfl,
                parseStrBody_backslash]
              rw [show decodeEsc ('t' :: (escapeList s ++ '"' :: rest)) =
                some ('\t', escapeList s ++ '"' :: rest) from rfl]
              dsimp only
              rw [ih f rest hfs]
              dsimp only [Option.map_some']
            · by_cases h5 : c = '\n'
              · subst h5
                rw [show escapeChar '\n' = ['\\', 'n'] from by simp [escapeChar],
                  show (['\\', 'n'] : List Char) ++ (escapeList s ++ '"' :: rest) =
                    '\\' :: 'n' :: (escapeList s ++ '"' :: rest) from rfl,
                  parseStrBody_backslash]
                rw [show decodeEsc ('n' :: (escapeList s ++ '"' :: rest)) =
                  some ('\n', escapeList s ++ '"' :: rest) from rfl]
                dsimp only
                rw [ih f rest hfs]
                dsimp only [Option.map_some']
              · by_cases h6 : c = '\x0c'
                · subst h6
                  rw [show escapeChar '\x0c' = ['\\', 'f'] from by
                      simp [escapeChar],
                    show (['\\', 'f'] : List Char) ++
                        (escapeList s ++ '"' :: rest) =
                      '\\' :: 'f' :: (escapeList s ++ '"' :: rest) from rfl,
                    parseStrBody_backslash]
                  rw [show decodeEsc ('f' :: (escapeList s ++ '"' :: rest)) =
                    some ('\x0c', escapeList s ++ '"' :: rest) from rfl]
                  dsimp only
                  rw [ih f rest hfs]
                  dsimp only [Option.map_some']
                · by_cases h7 : c = '\r'
                  · subst h7
                    rw [show escapeChar '\r' = ['\\', 'r'] from by
                        simp [escapeChar],
                      show (['\\', 'r'] : List Char) ++
                          (escapeList s ++ '"' :: rest) =
                        '\\' :: 'r' :: (escapeList s ++ '"' :: rest) from rfl,
                      parseStrBody_backslash]
                    rw [show decodeEsc ('r' :: (escapeList s ++ '"' :: rest)) =
                      some ('\r', escapeList s ++ '"' :: rest) from rfl]
                    dsimp only
                    rw [ih f rest hfs]
                    dsimp only [Option.map_some']
                  · by_cases h8 : c.toNat < 0x20 ∨ 0x7f ≤ c.toNat
                    · by_cases h9 : c.toNat < 0x10000
                      · have he : escapeChar c = '\\' :: 'u' :: toHex4 c.toNat := by
                          rw [escapeChar, if_neg h1, if_neg h2, if_neg h3,
                            if_neg h4, if_neg h5, if_neg h6, if_neg h7,
                            if_pos h8, if_pos h9]
                        rw [he,
                          show ('\\' :: 'u' :: toHex4 c.toNat) ++
                              (escapeList s ++ '"' :: rest) =
                            '\\' :: 'u' ::
                              (toHex4 c.toNat ++ (escapeList s ++ '"' :: rest))
                            from by simp,
                          parseStrBody_backslash,
                          show ('u' :: (toHex4 c.toNat ++
                              (escapeList s ++ '"' :: rest))) =
                            'u' :: (toHex4 c.toNat ++
                              (escapeList s ++ '"' :: rest)) from rfl,
                          decodeEsc_u_single c.toNat h9
                            (by have := char_valid_toNat c; omega) _]
                        dsimp only
                        rw [ih f rest hfs]
                        dsimp only [Option.map_some']
                        rw [Char.ofNat_toNat]
                      · have hval := char_valid_toNat c
                        have he : escapeChar c =
                            ('\\' :: 'u' ::
                              toHex4 (0xd800 + (c.toNat - 0x10000) / 0x400)) ++
                            ('\\' :: 'u' ::
                              toHex4 (0xdc00 + (c.toNat - 0x10000) % 0x400)) := by
                          rw [escapeChar, if_neg h1, if_neg h2, if_neg h3,
                            if_neg h4, if_neg h5, if_neg h6, if_neg h7,
                            if_pos h8, if_neg h9]
                        rw [he,
                          show (('\\' :: 'u' ::
                              toHex4 (0xd800 + (c.toNat - 0x10000) / 0x400)) ++
                            ('\\' :: 'u' ::
                              toHex4 (0xdc00 + (c.toNat - 0x10000) % 0x400))) ++
                              (escapeList s ++ '"' :: rest) =
                            '\\' :: 'u' ::
                              (toHex4 (0xd800 + (c.toNat - 0x10000) / 0x400) ++
                                ('\\' :: 'u' ::
                                  (toHex4 (0xdc00 + (c.toNat - 0x10000) % 0x400) ++
                                    (escapeList s ++ '"' :: rest)))) from by simp,
                          parseStrBody_backslash,
                          decodeEsc_u_pair (0xd800 + (c.toNat - 0x10000) / 0x400)
                            (0xdc00 + (c.toNat - 0x10000) % 0x400)
                            (by omega) (by omega) _]
                        dsimp only
                        rw [ih f rest hfs]
                        dsimp only [Option.map_some']
                        have hcomb : 0x10000 +
                            0x400 * (0xd800 + (c.toNat - 0x10000) / 0x400 - 0xd800) +
                            (0xdc00 + (c.toNat - 0x10000) % 0x400 - 0xdc00) =
                            c.toNat := by omega
                        rw [hcomb, Char.ofNat_toNat]
                    · have he : escapeChar c = [c] := by
                        rw [escapeChar, if_neg h1, if_neg h2, if_neg h3,
                          if_neg h4, if_neg h5, if_neg h6, if_neg h7, if_neg h8]
                      rw [he,
                        show ([c] : List Char) ++ (escapeList s ++ '"' :: rest) =
                          c :: (escapeList s ++ '"' :: rest) from rfl,
                        parseStrBody_plain f c _ h1 h2,
                        if_neg (by omega : ¬ c.toNat < 0x20),
                        ih f rest hfs]
                      rfl

theorem skipWs_not_ws (c : Char) (l : List Char) (h : isJsonWs c = false) :
    skipWs (c :: l) = c :: l := by
  simp [skipWs, List.dropWhile_cons, h]

theorem skipWs_space (l : List Char) : skipWs (' ' :: l) = skipWs l := by
  simp [skipWs, List.dropWhile_cons, isJsonWs]

theorem parseVal_space (fuel : Nat) (l : List Char) :
    parseVal fuel (' ' :: l) = parseVal fuel l := by
  cases fuel with
  | zero => rfl
  | succ f =>
    conv_lhs => rw [parseVal]
    conv_rhs => rw [parseVal]
    rw [skipWs_space]

theorem parseVal_null_step (f : Nat) (rest : List Char) :
    parseVal (f + 1) ('n' :: 'u' :: 'l' :: 'l' :: rest) =
      some (Json.null, rest) := rfl

theorem parseVal_true_step (f : Nat) (rest : List Char) :
    parseVal (f + 1) ('t' :: 'r' :: 'u' :: 'e' :: rest) =
      some (Json.bool true, rest) := rfl

theorem parseVal_false_step (f : Nat) (rest : List Char) :
    parseVal (f + 1) ('f' :: 'a' :: 'l' :: 's' :: 'e' :: rest) =
      some (Json.bool false, rest) := rfl

theorem parseVal_str_step (f : Nat) (rest : List Char) :
    parseVal (f + 1) ('"' :: rest) =
      (match parseStrBody rest.length rest with
       | some (s, r) => some (Json.str s.asString, r)
       | none => none) := rfl

theorem parseVal_arr_step (f : Nat) (rest : List Char) :
    parseVal (f + 1) ('[' :: rest) =
      (match skipWs rest with
       | [] => none
       | c2 :: rest2 =>
         if c2 = ']' then some (Json.arr [], rest2)
         else
           match parseVal f (c2 :: rest2) with
           | some (v, r3) =>
             (match parseElems f r3 with
              | some (vs, r4) => some (Json.arr (v :: vs), r4)
              | none => none)
           | none => none) := rfl

theorem parseVal_obj_step (f : Nat) (rest : List Char) :
    parseVal (f + 1) ('\x7b' :: rest) =
      (match skipWs rest with
       | [] => none
       | c2 :: rest2 =>
         if c2 = '\x7d' then some (Json.obj [], rest2)
         else
           match parseField f (c2 :: rest2) with
           | some (fd, r3) =>
             (match parseFields f r3 with
              | some (fs, r4) => some (Json.obj (fd :: fs), r4)
              | none => none)
           | none => none) := rfl

theorem parseVal_dash_step (f : Nat) (rest : List Char) :
    parseVal (f + 1) ('-' :: rest) = parseNum ('-' :: rest) := rfl

theorem parseVal_num_dispatch (f : Nat) (c0 : Char) (l : List Char)
    (h48 : 48 ≤ c0.toNat) (h57 : c0.toNat ≤ 57) :
    parseVal (f + 1) (c0 :: l) = parseNum (c0 :: l) := by
  obtain ⟨hws, hn, ht, hfk, hq, hbr, hbc, _, _, _, _, hdig⟩ :=
    digit_facts c0 h48 h57
  conv_lhs => rw [parseVal]
  rw [skipWs_not_ws c0 l hws]
  dsimp only
  rw [if_neg hn, if_neg ht, if_neg hfk, if_neg hq, if_neg hbr, if_neg hbc,
    if_pos (Or.inr hdig)]

theorem parseElems_close_step (f : Nat) (rest : List Char) :
    parseElems (f + 1) (']' :: rest) = some ([], rest) := rfl

theorem parseElems_comma_step (f : Nat) (rest : List Char) :
    parseElems (f + 1) (',' :: rest) =
      (match parseVal f rest with
       | some (v, r2) =>
         (match parseElems f r2 with
          | some (vs, r3) => some (v :: vs, r3)
          | none => none)
       | none => none) := rfl

theorem parseField_quote_step (f : Nat) (rest : List Char) :
    parseField (f + 1) ('"' :: rest) =
      (match parseStrBody rest.length rest with
       | some (k, r2) =>
         (match skipWs r2 with
          | [] => none
          | c2 :: r3 =>
            if c2 = ':' then
              (match parseVal f r3 with
               | some (v, r4) => some ((k.asString, v), r4)
               | none => none)
            else none)
       | none => none) := rfl

theorem parseFields_close_step (f : Nat) (rest : List Char) :
    parseFields (f + 1) ('\x7d' :: rest) = some ([], rest) := rfl

theorem parseFields_comma_step (f : Nat) (rest : List Char) :
    parseFields (f + 1) (',' :: rest) =
      (match parseField f rest with
       | some (fd, r2) =>
         (match parseFields f r2 with
          | some (fs, r3) => some (fd :: fs, r3)
          | none => none)
       | none => none) := rfl

theorem headNot_nil (p : Char → Bool) : headNot p [] := by
  intro d hd
  simp at hd

theorem headNot_cons (p : Char → Bool) (c : Char) (l : List Char)
    (h : p c = false) : headNot p (c :: l) := by
  intro d hd
  simp only [List.head?_cons, Option.some.injEq] at hd
  rw [← hd]
  exact h

theorem headNot_digit_elems (es : List Json) (rest : List Char) :
    headNot isDigitChar (dumpsElems es ++ (']' :: rest)) := by
  cases es with
  | nil => exact headNot_cons _ _ _ (by decide)
  | cons e es => exact headNot_cons _ _ _ (by decide)

theorem headNot_digit_fields (fs : List (String × Json)) (rest : List Char) :
    headNot isDigitChar (dumpsFields fs ++ ('\x7d' :: rest)) := by
  cases fs with
  | nil => exact headNot_cons _ _ _ (by decide)
  | cons fd fs => exact headNot_cons _ _ _ (by decide)

theorem nVal_pos : ∀ v : Json, 1 ≤ nVal v
  | .null => le_refl 1
  | .bool _ => le_refl 1
  | .num _ => le_refl 1
  | .str _ => le_refl 1
  | .arr [] => le_refl 1
  | .arr (_ :: _) => Nat.le_add_right 1 _
  | .obj [] => le_refl 1
  | .obj (_ :: _) => Nat.le_add_right 1 _

/-- The first character of any serialized JSON value: never whitespace and
never a closing bracket. -/
theorem dumpsVal_head (v : Json) :
    ∃ c r, dumpsVal v = c :: r ∧ isJsonWs c = false ∧ c ≠ ']' ∧ c ≠ '\x7d' := by
  cases v with
  | null => exact ⟨'n', _, rfl, by decide, by decide, by decide⟩
  | bool b =>
    cases b with
    | false => exact ⟨'f', _, rfl, by decide, by decide, by decide⟩
    | true => exact ⟨'t', _, rfl, by decide, by decide, by decide⟩
  | num n =>
    by_cases hneg : n < 0
    · refine ⟨'-', natDigits n.natAbs, ?_, by decide, by decide, by decide⟩
      show intToChars n = _
      rw [intToChars, if_pos hneg]
    · obtain ⟨ds, heq, hne, hdig, _⟩ := natDigits_spec n.toNat
      obtain ⟨c0, ds', rfl⟩ := List.exists_cons_of_ne_nil hne
      obtain ⟨h48, h57⟩ := hdig c0 (List.mem_cons_self c0 ds')
      obtain ⟨hws, _, _, _, _, _, _, hrb, hrbc, _, _, _⟩ :=
        digit_facts c0 h48 h57
      refine ⟨c0, ds', ?_, hws, hrb, hrbc⟩
      show intToChars n = _
      rw [intToChars, if_neg hneg, heq]
  | str s => exact ⟨'"', _, rfl, by decide, by decide, by decide⟩
  | arr es =>
    cases es with
    | nil => exact ⟨'[', _, rfl, by decide, by decide, by decide⟩
    | cons e es => exact ⟨'[', _, rfl, by decide, by decide, by decide⟩
  | obj fs =>
    cases fs with
    | nil => exact ⟨'\x7b', _, rfl, by decide, by decide, by decide⟩
    | cons fd fs => exact ⟨'\x7b', _, rfl, by decide, by decide, by decide⟩

mutual

/-- `parseVal` inverts `dumpsVal` (with enough fuel, and a continuation
that does not start with a digit). -/
theorem parseVal_dumps (v : Json) (rest : List Char) (fuel : Nat)
    (hf : nVal v ≤ fuel) (hrest : headNot isDigitChar rest) :
    parseVal fuel (dumpsVal v ++ rest) = some (v, rest) := by
  cases v with
  | null =>
    cases fuel with
    | zero => simp [nVal] at hf
    | succ f => exact parseVal_null_step f rest
  | bool b =>
    cases fuel with
    | zero => simp [nVal] at hf
    | succ f =>
      cases b with
      | false => exact parseVal_false_step f rest
      | true => exact parseVal_true_step f rest
  | num n =>
    cases fuel with
    | zero => simp [nVal] at hf
    | succ f =>
      by_cases hneg : n < 0
      · have hd : dumpsVal (Json.num n) ++ rest =
            '-' :: (natDigits n.natAbs ++ rest) := by
          show intToChars n ++ rest = _
          rw [intToChars, if_pos hneg, List.cons_append]
        rw [hd, parseVal_dash_step f (natDigits n.natAbs ++ rest)]
        have hback : '-' :: (natDigits n.natAbs ++ rest) =
            intToChars n ++ rest := by
          rw [intToChars, if_pos hneg, List.cons_append]
        rw [hback, parseNum_intToChars n rest hrest]
      · obtain ⟨ds, heq, hne, hdig, _⟩ := natDigits_spec n.toNat
        obtain ⟨c0, ds', rfl⟩ := List.exists_cons_of_ne_nil hne
        obtain ⟨h48, h57⟩ := hdig c0 (List.mem_cons_self c0 ds')
        have hd : dumpsVal (Json.num n) ++ rest = c0 :: (ds' ++ rest) := by
          show intToChars n ++ rest = _
          rw [intToChars, if_neg hneg, heq, List.cons_append]
        rw [hd, parseVal_num_dispatch f c0 (ds' ++ rest) h48 h57]
        have hback : c0 :: (ds' ++ rest) = intToChars n ++ rest := by
          rw [intToChars, if_neg hneg, heq, List.cons_append]
        rw [hback, parseNum_intToChars n rest hrest]
  | str s =>
    cases fuel with
    | zero => simp [nVal] at hf
    | succ f =>
      have hd : dumpsVal (Json.str s) ++ rest =
          '"' :: (escapeList s.toList ++ ('"' :: rest)) := by
        show ('"' :: (escapeList s.toList ++ ['"'])) ++ rest = _
        simp
      rw [hd, parseVal_str_step f]
      rw [parseStrBody_escape s.toList
        (escapeList s.toList ++ ('"' :: rest)).length rest
        (by
          have := escapeList_length s.toList
          simp only [List.length_append, List.length_cons]
          omega)]
      dsimp only
      rw [String.asString_toList]
  | arr es =>
    cases es with
    | nil =>
      cases fuel with
      | zero => simp [nVal] at hf
      | succ f =>
        have hd : dumpsVal (Json.arr []) ++ rest = '[' :: (']' :: rest) := rfl
        rw [hd, parseVal_arr_step f]
        rw [skipWs_not_ws ']' rest (by decide)]
        dsimp only
        rw [if_pos rfl]
    | cons e es =>
      cases fuel with
      | zero => simp [nVal] at hf
      | succ f =>
        have hf2 : nVal e ≤ f ∧ nElems es ≤ f := by
          simp only [nVal] at hf
          omega
        have hd : dumpsVal (Json.arr (e :: es)) ++ rest =
            '[' :: (dumpsVal e ++ (dumpsElems es ++ (']' :: rest))) := by
          show ('[' :: (dumpsVal e ++ dumpsElems es ++ [']'])) ++ rest = _
          simp
        rw [hd, parseVal_arr_step f]
        obtain ⟨c, r, hdv, hws, hrb, _⟩ := dumpsVal_head e
        have hshape : dumpsVal e ++ (dumpsElems es ++ (']' :: rest)) =
            c :: (r ++ (dumpsElems es ++ (']' :: rest))) := by
          rw [hdv, List.cons_append]
        rw [hshape, skipWs_not_ws c _ hws]
        dsimp only
        rw [if_neg hrb]
        have hback : c :: (r ++ (dumpsElems es ++ (']' :: rest))) =
            dumpsVal e ++ (dumpsElems es ++ (']' :: rest)) := by
          rw [hdv, List.cons_append]
        rw [hback,
          parseVal_dumps e (dumpsElems es ++ (']' :: rest)) f hf2.1
            (headNot_digit_elems es rest)]
        dsimp only
        rw [parseElems_dumps es rest f hf2.2]
  | obj fs =>
    cases fs with
    | nil =>
      cases fuel with
      | zero => simp [nVal] at hf
      | succ f =>
        have hd : dumpsVal (Json.obj []) ++ rest = '\x7b' :: ('\x7d' :: rest) := rfl
        rw [hd, parseVal_obj_step f]
        rw [skipWs_not_ws '\x7d' rest (by decide)]
        dsimp only
        rw [if_pos rfl]
    | cons fd fs =>
      cases fuel with
      | zero => simp [nVal] at hf
      | succ f =>
        have hf2 : nField fd ≤ f ∧ nFields fs ≤ f := by
          simp only [nVal] at hf
          omega
        have hd : dumpsVal (Json.obj (fd :: fs)) ++ rest =
            '\x7b' :: (dumpsField fd ++ (dumpsFields fs ++ ('\x7d' :: rest))) := by
          show ('\x7b' :: (dumpsField fd ++ dumpsFields fs ++ ['\x7d'])) ++ rest = _
          simp
        rw [hd, parseVal_obj_step f]
        obtain ⟨k, v⟩ := fd
        have hshape : dumpsField (k, v) ++ (dumpsFields fs ++ ('\x7d' :: rest)) =
            '"' :: ((escapeList k.toList ++
              ('"' :: ':' :: ' ' :: dumpsVal v)) ++
                (dumpsFields fs ++ ('\x7d' :: rest))) := by
          show ('"' :: (escapeList k.toList ++
            ('"' :: ':' :: ' ' :: dumpsVal v))) ++ _ = _
          rw [List.cons_append]
        rw [hshape, skipWs_not_ws '"' _ (by decide)]
        dsimp only
        rw [if_neg (by decide : ('"' : Char) ≠ '\x7d')]
        have hback : '"' :: ((escapeList k.toList ++
            ('"' :: ':' :: ' ' :: dumpsVal v)) ++
              (dumpsFields fs ++ ('\x7d' :: rest))) =
            dumpsField (k, v) ++ (dumpsFields fs ++ ('\x7d' :: rest)) := by
          show _ = ('"' :: (escapeList k.toList ++
            ('"' :: ':' :: ' ' :: dumpsVal v))) ++ _
          rw [List.cons_append]
        rw [hback,
          parseField_dumps (k, v) (dumpsFields fs ++ ('\x7d' :: rest)) f hf2.1
            (headNot_digit_fields fs rest)]
        dsimp only
        rw [parseFields_dumps fs rest f hf2.2]

theorem parseElems_dumps (es : List Json) (rest : List Char) (fuel : Nat)
    (hf : nElems es ≤ fuel) :
    parseElems fuel (dumpsElems es ++ (']' :: rest)) = some (es, rest) := by
  cases es with
  | nil =>
    cases fuel with
    | zero => simp [nElems] at hf
    | succ f => exact parseElems_close_step f rest
  | cons e es =>
    cases fuel with
    | zero => simp [nElems] at hf
    | succ f =>
      have hf2 : nVal e ≤ f ∧ nElems es ≤ f := by
        simp only [nElems] at hf
        omega
      have hd : dumpsElems (e :: es) ++ (']' :: rest) =
          ',' :: (' ' :: (dumpsVal e ++ (dumpsElems es ++ (']' :: rest)))) := by
        show (',' :: ' ' :: (dumpsVal e ++ dumpsElems es)) ++ (']' :: rest) = _
        simp
      rw [hd, parseElems_comma_step f, parseVal_space f,
        parseVal_dumps e (dumpsElems es ++ (']' :: rest)) f hf2.1
          (headNot_digit_elems es rest)]
      dsimp only
      rw [parseElems_dumps es rest f hf2.2]

theorem parseField_dumps (fd : String × Json) (rest : List Char) (fuel : Nat)
    (hf : nField fd ≤ fuel) (hrest : headNot isDigitChar rest) :
    parseField fuel (dumpsField fd ++ rest) = some (fd, rest) := by
  obtain ⟨k, v⟩ := fd
  cases fuel with
  | zero => simp [nField] at hf
  | succ f =>
    have hf2 : nVal v ≤ f := by
      simp only [nField] at hf
      omega
    have hd : dumpsField (k, v) ++ rest =
        '"' :: (escapeList k.toList ++
          ('"' :: (':' :: (' ' :: (dumpsVal v ++ rest))))) := by
      show ('"' :: (escapeList k.toList ++
        ('"' :: ':' :: ' ' :: dumpsVal v))) ++ rest = _
      simp
    rw [hd, parseField_quote_step f]
    rw [parseStrBody_escape k.toList _ _
      (by
        have := escapeList_length k.toList
        simp only [List.length_append, List.length_cons]
        omega)]
    dsimp only
    rw [skipWs_not_ws ':' _ (by decide)]
    dsimp only
    rw [if_pos rfl, parseVal_space f,
      parseVal_dumps v rest f hf2 hrest]
    dsimp only
    rw [String.asString_toList]

theorem parseFields_dumps (fs : List (String × Json)) (rest : List Char)
    (fuel : Nat) (hf : nFields fs ≤ fuel) :
    parseFields fuel (dumpsFields fs ++ ('\x7d' :: rest)) = some (fs, rest) := by
  cases fs with
  | nil =>
    cases fuel with
    | zero => simp [nFields] at hf
    | succ f => exact parseFields_close_step f rest
  | cons fd fs =>
    cases fuel with
    | zero => simp [nFields] at hf
    | succ f =>
      have hf2 : nField fd ≤ f ∧ nFields fs ≤ f := by
        simp only [nFields] at hf
        omega
      have hd : dumpsFields (fd :: fs) ++ ('\x7d' :: rest) =
          ',' :: (' ' :: (dumpsField fd ++ (dumpsFields fs ++ ('\x7d' :: rest)))) := by
        show (',' :: ' ' :: (dumpsField fd ++ dumpsFields fs)) ++ ('\x7d' :: rest) = _
        simp
      rw [hd, parseFields_comma_step f]
      have hfld : parseField f (dumpsField fd ++ (dumpsFields fs ++ ('\x7d' :: rest))) =
          some (fd, dumpsFields fs ++ ('\x7d' :: rest)) :=
        parseField_dumps fd (dumpsFields fs ++ ('\x7d' :: rest)) f hf2.1
          (headNot_digit_fields fs rest)
      rw [show parseField f (' ' :: (dumpsField fd ++ (dumpsFields fs ++ ('\x7d' :: rest)))) =
          parseField f (dumpsField fd ++ (dumpsFields fs ++ ('\x7d' :: rest))) from ?_]
      · rw [hfld]
        dsimp only
        rw [parseFields_dumps fs rest f hf2.2]
      · cases f with
        | zero => rfl
        | succ f2 =>
          conv_lhs => rw [parseField]
          conv_rhs => rw [parseField]
          rw [skipWs_space]

end

mutual

theorem nVal_le_length (v : Json) : nVal v ≤ (dumpsVal v).length := by
  cases v with
  | null => simp [nVal, dumpsVal]
  | bool b => cases b <;> simp [nVal, dumpsVal]
  | num n =>
    have h : 1 ≤ (intToChars n).length := by
      by_cases hneg : n < 0
      · rw [intToChars, if_pos hneg]
        simp
      · rw [intToChars, if_neg hneg]
        obtain ⟨ds, heq, hne, _, _⟩ := natDigits_spec n.toNat
        rw [heq]
        exact List.length_pos.mpr hne
    simpa [nVal, dumpsVal] using h
  | str s => simp [nVal, dumpsVal]
  | arr es =>
    cases es with
    | nil => simp [nVal, dumpsVal]
    | cons e es =>
      have h1 := nVal_le_length e
      have h2 := nElems_le_length es
      simp only [nVal, dumpsVal, List.length_cons, List.length_append]
      omega
  | obj fs =>
    cases fs with
    | nil => simp [nVal, dumpsVal]
    | cons fd fs =>
      have h1 := nField_le_length fd
      have h2 := nFields_le_length fs
      simp only [nVal, dumpsVal, List.length_cons, List.length_append]
      omega

theorem nElems_le_length (es : List Json) :
    nElems es ≤ (dumpsElems es).length + 1 := by
  cases es with
  | nil => simp [nElems, dumpsElems]
  | cons e es =>
    have h1 := nVal_le_length e
    have h2 := nElems_le_length es
    simp only [nElems, dumpsElems, List.length_cons, List.length_append]
    omega

theorem nField_le_length (fd : String × Json) :
    nField fd ≤ (dumpsField fd).length := by
  obtain ⟨k, v⟩ := fd
  have h1 := nVal_le_length v
  simp only [nField, dumpsField, List.length_cons, List.length_append]
  omega

theorem nFields_le_length (fs : List (String × Json)) :
    nFields fs ≤ (dumpsFields fs).length + 1 := by
  cases fs with
  | nil => simp [nFields, dumpsFields]
  | cons fd fs =>
    have h1 := nField_le_length fd
    have h2 := nFields_le_length fs
    simp only [nFields, dumpsFields, List.length_cons, List.length_append]
    omega

end

/-- The JSON round trip: parsing the output of `json.dumps` returns exactly
the value that was serialized. -/
theorem jsonLoads_dumps (v : Json) : jsonLoads (jsonDumps v) = some v := by
  unfold jsonLoads jsonDumps
  rw [List.toList_asString]
  have h1 : parseVal ((dumpsVal v).length + 1) (dumpsVal v ++ []) =
      some (v, []) :=
    parseVal_dumps v [] _ (by have := nVal_le_length v; omega) (headNot_nil _)
  rw [List.append_nil] at h1
  rw [h1]
  rfl

theorem jsonDumps_ne_empty (v : Json) : jsonDumps v ≠ "" := by
  obtain ⟨c, r, hd, _, _, _⟩ := dumpsVal_head v
  unfold jsonDumps
  rw [hd]
  intro h
  have := congrArg String.toList h
  rw [List.toList_asString] at this
  simp at this

/-- Reading back a JSON text column written by `json.dumps` recovers the
stored value (the column is never the empty string). -/
theorem loadsOr_dumps (v dflt : Json) : loadsOr (jsonDumps v) dflt = some v := by
  rw [loadsOr, if_neg (jsonDumps_ne_empty v), jsonLoads_dumps]

/-- `GET /api/lost-birds/<id>` on a store whose `lost_birds` table ends with a
freshly appended row whose JSON columns were written by `json.dumps`: the
lookup finds exactly that row and the decoded JSON columns are the original
values. -/
theorem get_lost_bird_append (st : Store) (row : LostBirdRow)
    (ch ph ci : Json) (owner : UserRow) (lbId : Int) (hid : row.id = lbId)
    (hnew : ∀ b ∈ st.lostBirds, b.id ≠ row.id)
    (hch : row.characteristics = jsonDumps ch)
    (hph : row.photos = jsonDumps ph)
    (hci : row.contact_info = jsonDumps ci)
    (ho : st.users.find? (fun u => u.id == row.user_id) = some owner)
    (hs : st.sightings.filter (fun s => s.lost_bird_id == row.id) = []) :
    get_lost_bird lbId { st with lostBirds := st.lostBirds ++ [row] } =
      Except.ok
        { id := row.id, name := row.name,
          description := row.description, characteristics := ch, photos := ph,
          last_seen_location := row.last_seen_location,
          last_seen_lat := row.last_seen_lat,
          last_seen_lng := row.last_seen_lng,
          lost_date := row.lost_date, contact_info := ci,
          reward_amount := row.reward_amount, status := row.status,
          created_at := row.created_at,
          owner := { id := owner.id, name := owner.name, email := owner.email,
                     phone := owner.phone },
          species := row.species_id.bind fun sid =>
            (st.species.find? (fun sp => sp.id == sid)).map fun sp =>
              { id := sp.id, name_th := sp.name_th, name_en := sp.name_en,
                description := sp.description },
          sightings := [] } := by
  subst hid
  have hfind : (st.lostBirds ++ [row]).find? (fun b => b.id == row.id)
      = some row := by
    rw [List.find?_append]
    have h0 : st.lostBirds.find? (fun b => b.id == row.id) = none :=
      List.find?_eq_none.mpr (fun b hb => by simpa using hnew b hb)
    rw [h0, Option.none_or]
    exact List.find?_cons_of_pos _ (by simp)
  unfold get_lost_bird
  dsimp only
  rw [hfind]
  dsimp only
  rw [ho]
  dsimp only
  rw [hch, hph, hci, loadsOr_dumps ch, loadsOr_dumps ph, loadsOr_dumps ci]
  dsimp only
  rw [hs]
  rfl

/-- C5: for every successful `create_lost_bird` call (all required fields
truthy, the lost_date parses, the owner row exists, and no stored sighting
already carries the fresh id), a subsequent `get_lost_bird` on the returned
id succeeds and yields `characteristics`, `photos` and `contact_info`
structurally equal to the JSON values supplied at creation: the
`json.dumps` / `json.loads` cycle through the stored text columns is the
identity on these values, with photo-list order preserved. -/
theorem create_get_roundtrip (parseDate : String → Option Int) (now : Int)
    (req : LostBirdRequest) (st : Store) (ch ph ci : Json)
    (hch : req.characteristics = some ch) (hph : req.photos = some ph)
    (hci : req.contact_info = some ci)
    (h1 : intTruthy req.user_id = true) (h2 : strTruthy req.name = true)
    (h3 : strTruthy req.description = true)
    (h4 : strTruthy req.last_seen_location = true)
    (h5 : strTruthy req.lost_date = true)
    (hdate : (parseDate (pyReplaceZ (req.lost_date.getD ""))).isSome = true)
    (howner : (st.users.find?
      (fun u => u.id == req.user_id.getD 0)).isSome = true)
    (hsight : ∀ s ∈ st.sightings, s.lost_bird_id ≠ nextLostBirdId st) :
    (create_lost_bird parseDate now req st).1 =
      CreateResult.created (nextLostBirdId st) ∧
    ∃ detail,
      get_lost_bird (nextLostBirdId st)
        (create_lost_bird parseDate now req st).2 = Except.ok detail ∧
      detail.characteristics = ch ∧ detail.photos = ph ∧
      detail.contact_info = ci := by
  obtain ⟨d, hd⟩ := Option.isSome_iff_exists.mp hdate
  obtain ⟨owner, ho⟩ := Option.isSome_iff_exists.mp howner
  have hpair : create_lost_bird parseDate now req st =
      (CreateResult.created (nextLostBirdId st),
       { st with lostBirds := st.lostBirds ++
          [{ id := nextLostBirdId st, user_id := req.user_id.getD 0,
             species_id := req.species_id, name := req.name.getD "",
             description := req.description.getD "",
             characteristics := jsonDumps ch, photos := jsonDumps ph,
             last_seen_location := req.last_seen_location.getD "",
             last_seen_lat := req.last_seen_lat,
             last_seen_lng := req.last_seen_lng, lost_date := d,
             contact_info := jsonDumps ci,
             reward_amount := req.reward_amount.getD 0, status := "lost",
             created_at := now, updated_at := now }] }) := by
    simp [create_lost_bird, h1, h2, h3, h4, h5, hd, hch, hph, hci]
  refine ⟨by rw [hpair], ?_⟩
  rw [hpair]
  refine ⟨_, get_lost_bird_append st _ ch ph ci owner (nextLostBirdId st)
    ?_ ?_ rfl rfl rfl ?_ ?_, ?_, ?_, ?_⟩
  · rfl
  · intro b hb
    have hlt : b.id < nextId (st.lostBirds.map (fun b => b.id)) :=
      lt_nextId b.id _ (List.mem_map_of_mem _ hb)
    show b.id ≠ nextId (st.lostBirds.map (fun b => b.id))
    omega
  · exact ho
  · show st.sightings.filter (fun s => s.lost_bird_id == nextLostBirdId st) = []
    rw [List.filter_eq_nil_iff]
    intro s hsm
    simpa using hsight s hsm
  · rfl
  · rfl
  · rfl

theorem create_get_roundtrip_witness :
    (reqKiwiGood.characteristics = some jsonCharacteristics ∧
     (stAnn.users.find?
       (fun u => u.id == reqKiwiGood.user_id.getD 0)).isSome = true) ∧
    (create_lost_bird (fun _ => some 77) 9 reqKiwiGood stAnn).1 =
      CreateResult.created (nextLostBirdId stAnn) ∧
    ∃ detail,
      get_lost_bird (nextLostBirdId stAnn)
        (create_lost_bird (fun _ => some 77) 9 reqKiwiGood stAnn).2 =
        Except.ok detail ∧
      detail.characteristics = jsonCharacteristics ∧
      detail.photos = jsonPhotos ∧ detail.contact_info = jsonContact :=
  ⟨⟨rfl, by decide⟩,
   create_get_roundtrip (fun _ => some 77) 9 reqKiwiGood stAnn
    jsonCharacteristics jsonPhotos jsonContact rfl rfl rfl
    (by decide) (by decide) (by decide) (by decide) (by decide) rfl
    (by decide) (by decide)⟩

end BirdFinder
